import Mathlib

/-!
# CursorCombat — verification of the level simulation core

A shallow embedding of the level simulation core of the CursorCombat
arcade game (Phaser/JavaScript), together with theorems settling the
specification claims about it.

The embedding translates, faithfully to the JavaScript source:

* `Shape` / `Shape.update`          — src/Source/shape.js (kinematic entity)
* `performDeathAnimation`           — src/Source/shape.js (death fade)
* `takeDamage`                      — ArmoredTriangle (src/unnamed/part_001)
* `Level.handleShapeInteraction`, `checkAllShapes`, `clearShapesNoSound`,
  `checkLevelCleared`, `levelUpdate`, `processLevelData`, `spawnShape`,
  `spawnArchitecture`, `loadLevel`  — Level class (src/unnamed/part_002)
* `HealthBar` operations            — src/unnamed/part_004
* `finishIntangible`, `finishSlowtime`, `loadCurrentLevel`,
  `animateBlackout`                 — GameScene (src/Source/square.js)

Numbers are modelled as exact rationals (the JS source uses f64; all
operations appearing in the claims are +, *, / by constants).  Phaser
geometry containment tests, rendering, audio and tween playback are
external collaborators: pointer containment is abstracted as an oracle
`Shape → Bool`, sound-effect calls are recorded in a `soundsPlayed` log,
and scheduled callbacks (`time.delayedCall` / `time.addEvent`) are
recorded as `TimeEvent`s tagged with the load generation that created
their closure (which models JS object identity across level reloads).
-/

namespace CC

/-- The JS class of a spawned shape object.  The class hierarchy in the
source is: `Triangle`, `StealthTriangle extends Triangle`,
`ArmoredTriangle extends Triangle`, `Square`, `Area extends Square`,
`Architecture`, and `Upgrade` with subclasses `ClearFriendlies`,
`Intangible`, `SlowTime`. -/
inductive ShapeKind where
  | triangle
  | stealth
  | armored
  | square
  | area
  | architecture
  | clearFriendlies
  | intangible
  | slowtime
deriving DecidableEq, Repr

/-- JS `shape instanceof Triangle` (StealthTriangle and ArmoredTriangle
extend Triangle). -/
def instTriangle (k : ShapeKind) : Bool :=
  k = .triangle || k = .stealth || k = .armored

/-- JS `shape instanceof Square` (Area extends Square). -/
def instSquare (k : ShapeKind) : Bool :=
  k = .square || k = .area

/-- JS `shape instanceof Area`. -/
def instArea (k : ShapeKind) : Bool :=
  k = .area

/-- JS `shape instanceof Architecture`. -/
def instArchitecture (k : ShapeKind) : Bool :=
  k = .architecture

/-- The game config height (`config.height`, src/unnamed/part_002 Phaser
config: `height: 600`). -/
def gameConfigHeight : ℚ := 600

/-- One game entity: the fields of the JS `Shape` base class
(src/Source/shape.js constructor) that the simulation core reads or
writes, plus `healthPoints` (set on `ArmoredTriangle` by
`generateSprite`), the polygon `points` of `Architecture`, and the
load-generation tag `gen` modelling object identity across reloads. -/
structure Shape where
  id : Nat := 0
  gen : Nat := 0
  kind : ShapeKind
  x : ℚ := 0
  y : ℚ := 0
  velocityX : ℚ := 0
  velocityY : ℚ := 0
  angularVelocity : ℚ := 0
  secondVelocityX : ℚ := 0
  secondVelocityY : ℚ := 0
  circularVelocityX : ℚ := 0
  circularVelocityY : ℚ := 0
  rotation : ℚ := 0
  scaleFactor : ℚ := 1
  healthPoints : Int := 0
  dying : Bool := false
  toBeRemoved : Bool := false
  points : List (ℚ × ℚ) := []
deriving DecidableEq, Repr

/-- `Shape.update(time, delta)` from src/Source/shape.js lines 83-96
(the `time` argument is unused by the source).  `D` is
`scene.difficultyAdjustment`, `T` is `scene.slowtimeFactor`, `delta` is
the elapsed frame time in milliseconds. -/
def Shape.update (s : Shape) (D T delta : ℚ) : Shape :=
  let deltaX := ((s.velocityX * D + s.secondVelocityX + s.circularVelocityX) * delta * T) / 1000
  let deltaY := ((s.velocityY * D + s.secondVelocityY + s.circularVelocityY) * delta * T) / 1000
  let deltaAngle := (s.angularVelocity * delta * T * D) / 1000
  { s with x := s.x + deltaX, y := s.y + deltaY, rotation := s.rotation + deltaAngle }

/-- The depletion tween created by `HealthBar.decreaseHealthBar`
(src/unnamed/part_004): a linear sweep of the fill scale to
`targetScale` over `duration` milliseconds. -/
structure DyingTween where
  targetScale : ℚ := 0
  duration : ℚ := 4000
deriving DecidableEq, Repr

/-- The resource-bar state (`HealthBar`, src/unnamed/part_004).  The
constructor sets `dying = true`; alpha/fade presentation is omitted. -/
structure HealthBar where
  fillScale : ℚ := 1
  dying : Bool := true
  dyingTween : Option DyingTween := none
deriving DecidableEq, Repr

/-- `HealthBar.refillAndPauseHealthBar` (src/unnamed/part_004 lines
192-204): stop depletion, stop the tween, snap the fill back to full. -/
def refillAndPauseHealthBar (hb : HealthBar) : HealthBar :=
  { hb with dying := false, dyingTween := none, fillScale := 1 }

/-- `HealthBar.decreaseHealthBar` (src/unnamed/part_004 lines 160-187):
mark depleting and start a 4000 ms linear tween of the fill toward 0;
the fill itself still sits at its current level when the tween starts. -/
def decreaseHealthBar (hb : HealthBar) : HealthBar :=
  { hb with dying := true, dyingTween := some { targetScale := 0, duration := 4000 } }

/-- `HealthBar.hideHealthBarInstant` (src/unnamed/part_004): refill and
pause; the alpha changes are presentation only. -/
def hideHealthBarInstant (hb : HealthBar) : HealthBar :=
  refillAndPauseHealthBar hb

/-- A scheduled callback (`scene.time.delayedCall` / `time.addEvent`).
`gen` is the load generation whose closure the callback captured; the
JS `time.removeAllEvents()` drops all of them. -/
structure TimeEvent where
  gen : Nat := 0
  delay : ℚ := 0
deriving DecidableEq, Repr

/-- The outcome reported by `checkLevelCleared` ('Level Cleared!' /
'Level Failed' message). -/
inductive Outcome where
  | cleared
  | failed
deriving DecidableEq, Repr

/-- The combined Level + GameScene simulation state: the `Level` fields
(src/unnamed/part_002 constructor) and the GameScene fields the level
core reads or writes (`score`, `difficultyAdjustment`,
`slowtimeFactor`, the health bar, scheduled events).  `soundsPlayed`
logs `scene.sound.play` calls, `outcome` models the cleared/failed
message text, `nextId` is `Shape.staticId`, and `gen` counts level
loads (for tagging scheduled callbacks). -/
structure GameState where
  score : ℚ := 0
  levelPassableScore : ℚ := 0
  shapes : List Shape := []
  squaresSpared : Bool := true
  architectureSpared : Bool := true
  trianglesSpared : Bool := true
  showAreaHP : Bool := false
  intangibleActive : Bool := false
  intangible : Bool := false
  slowtimeActive : Bool := false
  slowtime : Bool := false
  slowtimeFactor : ℚ := 1
  difficultyAdjustment : ℚ := 1
  healthBar : HealthBar := {}
  timeEvents : List TimeEvent := []
  gen : Nat := 0
  nextId : Nat := 0
  soundsPlayed : List String := []
  outcome : Option Outcome := none
  achievements : List String := []
deriving DecidableEq, Repr

/-- Replace the element at position `i` of a list by `f` of it (no-op
out of range).  Shapes are addressed by their position in
`Level.shapes`, which models JS object identity: the interaction
handlers never restructure the array, they only mutate fields. -/
def modifyAt (l : List Shape) (i : Nat) (f : Shape → Shape) : List Shape :=
  match l, i with
  | [], _ => []
  | s :: rest, 0 => f s :: rest
  | s :: rest, n+1 => s :: modifyAt rest n f

/-- `Shape.performDeathAnimation` (src/Source/shape.js lines 258-291):
no-op if already dying; play the 'pop' sound if on screen
(`y <= config.height + 50`); mark dying and start the 250 ms fade
whose completion later sets `toBeRemoved` (see `deathFadeComplete`). -/
def performDeathAnimation (st : GameState) (i : Nat) : GameState :=
  match st.shapes.get? i with
  | none => st
  | some sh =>
    if sh.dying then st
    else
      let st1 := if sh.y ≤ gameConfigHeight + 50
                 then { st with soundsPlayed := "pop" :: st.soundsPlayed }
                 else st
      { st1 with shapes := modifyAt st1.shapes i (fun s => { s with dying := true }) }

/-- The `onComplete` of the death-fade tween (src/Source/shape.js lines
283-289), which fires 250 ms after `performDeathAnimation`, on a later
frame: mark the shape for removal. -/
def deathFadeComplete (st : GameState) (i : Nat) : GameState :=
  { st with shapes := modifyAt st.shapes i (fun s => { s with toBeRemoved := true }) }

/-- `Level.removeShape` (src/unnamed/part_002 lines 322-324). -/
def removeShape (st : GameState) (i : Nat) : GameState :=
  performDeathAnimation st i

/-- `ArmoredTriangle.takeDamage` (src/unnamed/part_001 lines 42-62):
decrement `healthPoints`; at exactly 0, add one to the score and remove
the shape; if still positive, regenerate the tier sprite (presentation
only).  The pointerdown handler calls this with no intangibility or
dying guard. -/
def takeDamage (st : GameState) (i : Nat) : GameState :=
  match st.shapes.get? i with
  | none => st
  | some sh =>
    let st1 := { st with shapes := modifyAt st.shapes i (fun s => { s with healthPoints := s.healthPoints - 1 }) }
    if sh.healthPoints - 1 = 0 then
      removeShape { st1 with score := st1.score + 1 } i
    else st1

/-- Character-level prefix test, the semantics of the JS
`String.prototype.startsWith` used for the `'armored_'` and `'stealth'`
label prefixes. -/
def strStartsWith (s p : String) : Bool :=
  p.data.isPrefixOf s.data

/-- The squares-and-architecture sweep run when a `'clear-friendlies'`
power-up is hovered (src/unnamed/part_002 lines 265-277): every
Architecture or Square (but not Area) shape whose `y` is above
`-300 * scaleFactor²` of the power-up is teleported below the screen
and removed.  The `forEach` mutates fields only, so it is a fold over
the positions of the array. -/
def clearFriendliesStep (sf : ℚ) (acc : GameState) (j : Nat) : GameState :=
  match acc.shapes.get? j with
  | none => acc
  | some sn =>
    if (instArchitecture sn.kind || instSquare sn.kind) && !(instArea sn.kind) then
      if sn.y > -300 * sf * sf then
        removeShape { acc with shapes := modifyAt acc.shapes j (fun s => { s with y := gameConfigHeight + 100 }) } j
      else acc
    else acc

/-- The whole clear-friendlies sweep (src/unnamed/part_002 lines
265-277). -/
def clearFriendliesEffect (st : GameState) (sf : ℚ) : GameState :=
  (List.range st.shapes.length).foldl (clearFriendliesStep sf) st

/-- The tail of `Level.handleShapeInteraction` (src/unnamed/part_002
lines 297-316): bail out if the shape is (by now) dying, otherwise
remove it and adjust the score by its type label. -/
def hsiFinish (st : GameState) (i : Nat) (shapeType : String) : GameState :=
  match st.shapes.get? i with
  | none => st
  | some sh =>
    if sh.dying then st
    else
      let st2 := removeShape st i
      let st3 := if shapeType = "triangle" || shapeType = "stealth"
                 then { st2 with score := st2.score + 1 } else st2
      if shapeType = "architecture" || shapeType = "square"
      then { st3 with score := st3.score - 1 } else st3

/-- `Level.handleShapeInteraction(shape, shapeType)`
(src/unnamed/part_002 lines 247-317).  The shape is addressed by its
position `i` in `Level.shapes` (the JS `indexOf(shape) > -1` test is
the `get?` match).  Branch order as in the source: the Resource Zone
(`'area'`) branch precedes the intangibility guard; the power-up
branches precede the `shape.dying` guard; `'armored_'`-labelled
interactions return before any state change. -/
def handleShapeInteraction (st : GameState) (i : Nat) (shapeType : String) : GameState :=
  match st.shapes.get? i with
  | none => st
  | some sh =>
    if shapeType = "area" then
      { st with healthBar := refillAndPauseHealthBar st.healthBar }
    else if st.intangible then st
    else if shapeType = "clear-friendlies" then
      hsiFinish (clearFriendliesEffect st sh.scaleFactor) i shapeType
    else if shapeType = "intangible" then
      hsiFinish { st with intangibleActive := true } i shapeType
    else if shapeType = "slowtime" then
      hsiFinish { st with slowtimeActive := true } i shapeType
    else if strStartsWith shapeType "armored_" then st
    else hsiFinish st i shapeType

/-- The `instanceof` chain of `Level.checkAllShapes`
(src/unnamed/part_002 lines 467-488) mapping a shape's class to the
type label passed to `handleShapeInteraction`.  Note that the first
branch, `shape instanceof Triangle`, also matches `StealthTriangle`
and `ArmoredTriangle`, which extend `Triangle`. -/
def checkAllShapesType (k : ShapeKind) : Option String :=
  if instTriangle k then some "triangle"
  else if instArea k then some "area"
  else if instSquare k then some "square"
  else if instArchitecture k then some "architecture"
  else if k = .clearFriendlies then some "clear-friendlies"
  else if k = .intangible then some "intangible"
  else if k = .slowtime then some "slowtime"
  else none

/-- `Level.checkAllShapes` (src/unnamed/part_002 lines 452-497): the
catch-up containment pass.  `contains` is the pointer-containment
oracle standing for the `Phaser.Geom.*.Contains` tests against the
pointer position. -/
def checkAllShapes (st : GameState) (contains : Shape → Bool) : GameState :=
  (List.range st.shapes.length).foldl
    (fun acc j =>
      match acc.shapes.get? j with
      | none => acc
      | some sh =>
        match checkAllShapesType sh.kind with
        | none => acc
        | some ty => if contains sh then handleShapeInteraction acc j ty else acc)
    st

/-- `GameScene.finishIntangible` (src/Source/square.js lines 633-644):
clear the intangible flag, then run the catch-up containment pass over
all shapes.  (The UI-text update is presentation only.) -/
def finishIntangible (st : GameState) (contains : Shape → Bool) : GameState :=
  checkAllShapes { st with intangible := false } contains

/-- `GameScene.finishSlowtime` (src/Source/square.js lines 650-660):
clear the slowtime flag and restore the time scale.  (The
tween-rate re-synchronisation and UI text are omitted.) -/
def finishSlowtime (st : GameState) : GameState :=
  { st with slowtime := false, slowtimeFactor := 1 }

/-- One iteration of the `forEach` in `Level.clearShapesNoSound`
(src/unnamed/part_002 lines 504-512): move the shape below the screen,
then remove it unless already marked for removal. -/
def clearShapeStep (acc : GameState) (j : Nat) : GameState :=
  match acc.shapes.get? j with
  | none => acc
  | some _ =>
    let acc1 := { acc with shapes := modifyAt acc.shapes j (fun s => { s with y := gameConfigHeight + 100 }) }
    match acc1.shapes.get? j with
    | none => acc1
    | some sh => if !sh.toBeRemoved then removeShape acc1 j else acc1

/-- `Level.clearShapesNoSound` (src/unnamed/part_002 lines 504-512). -/
def clearShapesNoSound (st : GameState) : GameState :=
  (List.range st.shapes.length).foldl clearShapeStep st

/-- `GameScene.unlockAchievement` (src/Source/square.js lines 820-827),
reduced to recording the achievement name once. -/
def unlockAchievement (st : GameState) (name : String) : GameState :=
  if st.achievements.contains name then st
  else { st with achievements := name :: st.achievements }

/-- `Level.checkLevelCleared` (src/unnamed/part_002 lines 329-387):
only acts when the live-shape set is empty; clears effects and the
resource bar, decides cleared/failed by `score >= levelPassableScore`,
unlocks achievements from the spared flags, plays the win/lose sound,
and reports the outcome (the 2-second delayed next/retry call is the
reported outcome here). -/
def checkLevelCleared (st : GameState) : GameState :=
  if st.shapes.isEmpty then
    let st1 := { st with showAreaHP := false, healthBar := hideHealthBarInstant st.healthBar }
    let cleared : Bool := st1.levelPassableScore ≤ st1.score
    let st2 :=
      if !st1.squaresSpared && !st1.architectureSpared then
        let stA := unlockAchievement st1 "Friendly-Fire"
        if !stA.trianglesSpared then unlockAchievement stA "Destructive" else stA
      else st1
    let st3 := { st2 with soundsPlayed := (if cleared then "win" else "lose") :: st2.soundsPlayed }
    { st3 with outcome := some (if cleared then Outcome.cleared else Outcome.failed) }
  else st

/-- The spared-flag restoration block of `Level.update`
(src/unnamed/part_002 lines 413-417), run when a (non-dying) shape
fell past the death plane and was removed: restore the spared flag of
its class, and hide the resource bar (`hideHealthBar`, whose state
effect is `refillAndPauseHealthBar`) for an Area. -/
def spareFlagsStage (sh : Shape) (acc : GameState) : GameState :=
  let acc1 := if instSquare sh.kind then { acc with squaresSpared := true } else acc
  let acc2 := if instArchitecture sh.kind then { acc1 with architectureSpared := true } else acc1
  let acc3 := if instTriangle sh.kind then { acc2 with trianglesSpared := true } else acc2
  if instArea sh.kind then { acc3 with healthBar := refillAndPauseHealthBar acc3.healthBar } else acc3

/-- The death-plane block of `Level.update` (src/unnamed/part_002
lines 409-418): if the shape sits below `config.height + 50`, remove
it and restore its class's spared flag. -/
def deathPlaneStage (sh : Shape) (j : Nat) (acc : GameState) : GameState :=
  if sh.y > gameConfigHeight + 50 then spareFlagsStage sh (removeShape acc j) else acc

/-- The resource-bar reveal block of `Level.update`
(src/unnamed/part_002 lines 420-427): an Area that has come on screen
shows the resource bar (`showHealthBar`, whose state effect is
`decreaseHealthBar`) once. -/
def areaShowStage (sh : Shape) (acc : GameState) : GameState :=
  if instArea sh.kind then
    if sh.y > 0 && !acc.showAreaHP then
      { acc with healthBar := decreaseHealthBar acc.healthBar, showAreaHP := true }
    else acc
  else acc

/-- One iteration of the `forEach` in `Level.update`
(src/unnamed/part_002 lines 397-429), threading the
`onlyArchitecture` accumulator: advance the shape kinematically,
update the accumulator from its class and vertical velocity, and, if
it is not dying, run the death-plane and resource-bar-reveal blocks. -/
def shapeTickStep (delta : ℚ) (p : GameState × Bool) (j : Nat) : GameState × Bool :=
  match p.1.shapes.get? j with
  | none => p
  | some _ =>
    let acc := { p.1 with shapes := modifyAt p.1.shapes j (fun s => Shape.update s p.1.difficultyAdjustment p.1.slowtimeFactor delta) }
    match acc.shapes.get? j with
    | none => (acc, p.2)
    | some sh =>
      let onlyArch :=
        if !(instArchitecture sh.kind || instArea sh.kind) then false
        else if instArchitecture sh.kind && sh.velocityY > 0 then false
        else p.2
      if !sh.dying then (areaShowStage sh (deathPlaneStage sh j acc), onlyArch)
      else (acc, onlyArch)

/-- `Level.update(time, delta)` (src/unnamed/part_002 lines 393-444):
advance and cull every shape, force-clear when only non-terminating
Architecture/Area shapes remain, purge shapes marked for removal, and
run the clearance check when the purge shrank the set.
(`shape instanceof Area` falling past the death plane calls
`hideHealthBar`, whose state effect is `refillAndPauseHealthBar`; an
Area coming on screen calls `showHealthBar`, whose state effect is
`decreaseHealthBar`.) -/
def levelUpdate (st : GameState) (delta : ℚ) : GameState :=
  let p := (List.range st.shapes.length).foldl (shapeTickStep delta) (st, true)
  let st1 := p.1
  let st2 := if p.2 then clearShapesNoSound { st1 with architectureSpared := true } else st1
  let originalLength := st2.shapes.length
  let st3 := { st2 with shapes := st2.shapes.filter (fun s => !s.toBeRemoved) }
  if st3.shapes.length < originalLength then checkLevelCleared st3 else st3

/-- The `onComplete` of the resource-bar depletion tween
(src/unnamed/part_004 lines 181-185), firing 4000 ms after depletion
starts: clear every shape silently and reset the score to zero (the
fill has swept to 0 by then). -/
def healthDepleteComplete (st : GameState) : GameState :=
  let st1 := clearShapesNoSound st
  { st1 with score := 0, healthBar := { st1.healthBar with fillScale := 0 } }

/-- One element of a level-script tuple.  Script lines are heterogeneous
JS arrays of numbers, strings, point lists, animation-parameter lists
(`[delay, [params...]]` pairs), plain number lists, and blackout fade
triples. -/
inductive Datum where
  | num (q : ℚ)
  | str (s : String)
  | pts (l : List (ℚ × ℚ))
  | anims (l : List (ℚ × List ℚ))
  | nums (l : List ℚ)
  | fades (l : List (ℚ × ℚ × ℚ))
deriving DecidableEq, Repr

/-- Read a `Datum` as a number (JS destructuring performs no checks;
wrong-typed slots are defaulted). -/
def Datum.asNum : Datum → ℚ
  | .num q => q
  | _ => 0

/-- Read a `Datum` as a string. -/
def Datum.asStr : Datum → String
  | .str s => s
  | _ => ""

/-- Read a `Datum` as a point list. -/
def Datum.asPts : Datum → List (ℚ × ℚ)
  | .pts l => l
  | _ => []

/-- Read a `Datum` as an animation-parameter list. -/
def Datum.asAnims : Datum → List (ℚ × List ℚ)
  | .anims l => l
  | _ => []

/-- Read a `Datum` as a number list. -/
def Datum.asNums : Datum → List ℚ
  | .nums l => l
  | _ => []

/-- Read a `Datum` as a blackout fade list. -/
def Datum.asFades : Datum → List (ℚ × ℚ × ℚ)
  | .fades l => l
  | _ => []

/-- The shape-kind selection chain of `Level.spawnShape`
(src/unnamed/part_002 lines 174-214): exact labels first, then the
`'armored_'` and `'stealth'` prefixes, else the fatal
`throw new Error("Not Implemented")`. -/
def labelKind (shapeType : String) : Option ShapeKind :=
  if shapeType = "triangle" then some .triangle
  else if shapeType = "square" then some .square
  else if shapeType = "area" then some .area
  else if shapeType = "clear-friendlies" then some .clearFriendlies
  else if shapeType = "intangible" then some .intangible
  else if shapeType = "slowtime" then some .slowtime
  else if strStartsWith shapeType "armored_" then some .armored
  else if strStartsWith shapeType "stealth" then some .stealth
  else none

/-- `parseInt(shapeType.charAt(shapeType.length - 1), 10)` from
src/unnamed/part_002 line 231: the armored label's trailing digit is
its initial health points. -/
def lastCharDigit (s : String) : Int :=
  match s.data.getLast? with
  | some c => if c.isDigit then (c.toNat - '0'.toNat : Int) else 0
  | none => 0

/-- The `delayedCall`s scheduled by `Shape.animateVelocities` /
`animateScale` / `animateMovement` (src/Source/shape.js): one per
animation entry, with the entry's delay divided by the difficulty
adjustment; an entry whose parameter list does not have the expected
arity throws `Error("Not Implemented")` before anything is scheduled
for it. -/
def scheduleAnimEntries (gen : Nat) (diff : ℚ) (expectedLen : Nat) :
    List (ℚ × List ℚ) → Except String (List TimeEvent)
  | [] => .ok []
  | (delay, params) :: rest =>
    if params.length = expectedLen then
      match scheduleAnimEntries gen diff expectedLen rest with
      | .error e => .error e
      | .ok evs => .ok ({ gen := gen, delay := delay / diff } :: evs)
    else .error "Not Implemented"

/-- `Shape.animateCircularMovement` (src/Source/shape.js lines
298-330): an empty parameter list is a no-op, any arity other than 5
throws, otherwise one `delayedCall` is scheduled with the delay
divided by the difficulty adjustment. -/
def animateCircularEvents (gen : Nat) (diff : ℚ) (params : List ℚ) :
    Except String (List TimeEvent) :=
  if params.length = 0 then .ok []
  else if params.length = 5 then
    .ok [{ gen := gen, delay := (params.headI) / diff }]
  else .error "Not Implemented"

/-- `GameScene.animateBlackout` (src/Source/square.js lines 740-780):
one `delayedCall` per fade triple (delays are not difficulty-divided
here). -/
def animateBlackout (st : GameState) (fades : List (ℚ × ℚ × ℚ)) : GameState :=
  if fades.length = 0 then st
  else { st with timeEvents := st.timeEvents ++ fades.map (fun f => { gen := st.gen, delay := f.1 }) }

/-- `Level.spawnArchitecture(points, velocityY)` (src/unnamed/part_002
lines 148-157) together with the `Architecture` constructor
(src/unnamed/part_003): mark architecture present, normalise the
polygon so its topmost point is the local origin, and append the
shape.  (For the empty point list the JS `Math.min()` yields Infinity;
level scripts always supply non-empty polygons, the fallback 0 is
arbitrary.) -/
def spawnArchitecture (st : GameState) (points : List (ℚ × ℚ)) (velY : ℚ) : GameState :=
  let minY := ((points.map Prod.snd).min?).getD 0
  let sh : Shape := { id := st.nextId, gen := st.gen, kind := .architecture,
                      x := 0, y := minY, velocityX := 0, velocityY := velY,
                      angularVelocity := 0,
                      points := points.map (fun p => (p.1, p.2 - minY)) }
  { st with architectureSpared := false,
            shapes := st.shapes ++ [sh],
            nextId := st.nextId + 1 }

/-- The body of `Level.spawnShape` (src/unnamed/part_002 lines
171-240) after the variant has been selected by label: schedule the
four animation families (any malformed family throws before the shape
is pushed), append the shape, and for an armored label set its health
points from the trailing digit of the label (the JS does this through
`generateSprite` right after the push). -/
def spawnShapeCore (st : GameState) (k : ShapeKind) (shapeType : String) (x y vX vY angV : ℚ)
    (velocityData scaleData movementData : List (ℚ × List ℚ)) (circData : List ℚ) :
    Except String GameState :=
  match scheduleAnimEntries st.gen st.difficultyAdjustment 3 velocityData with
    | .error e => .error e
    | .ok ev1 =>
    match scheduleAnimEntries st.gen st.difficultyAdjustment 2 scaleData with
    | .error e => .error e
    | .ok ev2 =>
    match scheduleAnimEntries st.gen st.difficultyAdjustment 4 movementData with
    | .error e => .error e
    | .ok ev3 =>
    match animateCircularEvents st.gen st.difficultyAdjustment circData with
    | .error e => .error e
    | .ok ev4 =>
      let hp : Int := if k = .armored then lastCharDigit shapeType else 0
      let sh : Shape := { id := st.nextId, gen := st.gen, kind := k,
                          x := x, y := y, velocityX := vX, velocityY := vY,
                          angularVelocity := angV, healthPoints := hp }
      .ok { st with timeEvents := st.timeEvents ++ ev1 ++ ev2 ++ ev3 ++ ev4,
                    shapes := st.shapes ++ [sh],
                    nextId := st.nextId + 1 }

/-- `Level.spawnShape` (src/unnamed/part_002 lines 171-240): decode
the label, update the spared flags, and hand over to the core spawn. -/
def spawnShape (st0 : GameState) (shapeType : String) (x y vX vY angV : ℚ)
    (velocityData scaleData movementData : List (ℚ × List ℚ)) (circData : List ℚ) :
    Except String GameState :=
  match labelKind shapeType with
  | none => .error "Not Implemented"
  | some k =>
    let st :=
      if k = .triangle || k = .armored || k = .stealth then { st0 with trianglesSpared := false }
      else if k = .square then { st0 with squaresSpared := false }
      else st0
    spawnShapeCore st k shapeType x y vX vY angV velocityData scaleData movementData circData

/-- `Level.processLevelData(data)` (src/unnamed/part_002 lines
108-141): dispatch a script line by its tuple length — 1 sets the
passable score, 2 schedules blackout fades when headed by `'black'`
(and is silently ignored otherwise), 3 spawns an architecture polygon,
10 spawns a moving shape, anything else throws
`Error("Not Implemented")`. -/
def processLevelData (st : GameState) (data : List Datum) : Except String GameState :=
  let d := fun i => (data.get? i).getD (Datum.num 0)
  if data.length = 1 then
    .ok { st with levelPassableScore := (d 0).asNum }
  else if data.length = 2 then
    if d 0 = Datum.str "black" then .ok (animateBlackout st (d 1).asFades)
    else .ok st
  else if data.length = 3 then
    .ok (spawnArchitecture st (d 1).asPts (d 2).asNum)
  else if data.length = 10 then
    spawnShape st (d 0).asStr (d 1).asNum (d 2).asNum (d 3).asNum (d 4).asNum (d 5).asNum
      (d 6).asAnims (d 7).asAnims (d 8).asAnims (d 9).asNums
  else .error "Not Implemented"

/-- The `levelData.forEach(processLevelData)` loop of `Level.loadLevel`
(src/unnamed/part_002 lines 43-45); a throw aborts the whole load. -/
def processScript (st : GameState) : List (List Datum) → Except String GameState
  | [] => .ok st
  | line :: rest =>
    match processLevelData st line with
    | .error e => .error e
    | .ok st1 => processScript st1 rest

/-- `Level.resetPowerUpsAndEffects` (src/unnamed/part_002 lines 72-102):
drop the intangible availability, finish intangibility (which runs the
catch-up containment pass), drop the slowtime availability, finish
slowtime, and stop the blackout fade (tween bookkeeping omitted). -/
def resetPowerUpsAndEffects (st : GameState) (contains : Shape → Bool) : GameState :=
  let st1 := { st with intangibleActive := false }
  let st2 := finishIntangible st1 contains
  let st3 := { st2 with slowtimeActive := false }
  finishSlowtime st3

/-- `Level.resetLevelState` (src/unnamed/part_002 lines 51-67): reset
the shape id counter and the spared flags, reset power-ups and
effects, hide the resource bar, and destroy any previous outcome
message. -/
def resetLevelState (st : GameState) (contains : Shape → Bool) : GameState :=
  let st1 := { st with nextId := 0, squaresSpared := true,
                       architectureSpared := true, trianglesSpared := true }
  let st2 := resetPowerUpsAndEffects st1 contains
  { st2 with healthBar := hideHealthBarInstant st2.healthBar,
             showAreaHP := false, outcome := none }

/-- `Level.loadLevel(levelData)` (src/unnamed/part_002 lines 38-46):
reset the level state, then process every script line.  Entering a new
load bumps the generation tag carried by the closures it creates. -/
def loadLevel (st : GameState) (script : List (List Datum)) (contains : Shape → Bool) :
    Except String GameState :=
  let st1 := { st with gen := st.gen + 1 }
  let st2 := resetLevelState st1 contains
  processScript st2 script

/-- `GameScene.loadCurrentLevel` (src/Source/square.js lines 665-675):
cancel all scheduled events (`time.removeAllEvents()`), reset the
score, silently clear the previous shapes, purge those already marked
for removal, and load the level script. -/
def loadCurrentLevel (st : GameState) (script : List (List Datum)) (contains : Shape → Bool) :
    Except String GameState :=
  let st1 := { st with timeEvents := [] }
  let st2 := { st1 with score := 0 }
  let st3 := clearShapesNoSound st2
  let st4 := { st3 with shapes := st3.shapes.filter (fun s => !s.toBeRemoved) }
  loadLevel st4 script contains

/-- The invariant maintained while re-populating a freshly reloaded
level of generation `G`: the state is at generation `G`; every pending
scheduled callback was created by this load; every shape either was
spawned by this load or is a still-fading corpse of the previous one;
the power-up flags and the time scale are reset; and the score is
zero. -/
def ReloadInv (G : Nat) (st : GameState) : Prop :=
  st.gen = G ∧ (∀ e ∈ st.timeEvents, e.gen = G)
  ∧ (∀ s ∈ st.shapes, s.gen = G ∨ s.dying = true)
  ∧ st.intangible = false ∧ st.intangibleActive = false
  ∧ st.slowtime = false ∧ st.slowtimeActive = false
  ∧ st.slowtimeFactor = 1 ∧ st.score = 0

/-- The invariant carried through the per-shape loop of
`Level.update` when every live shape is a static (non-descending)
Architecture or Area: the `onlyArchitecture` accumulator is still
true, the sound log, shape count and outcome are untouched, and the
shapes still classify as static Architecture / Area not yet marked
for removal. -/
def StaticInv (S0 : List String) (N0 : Nat) (O0 : Option Outcome) (q : GameState × Bool) : Prop :=
  q.2 = true ∧ q.1.soundsPlayed = S0 ∧ q.1.shapes.length = N0 ∧ q.1.outcome = O0
  ∧ ∀ s ∈ q.1.shapes, (instArchitecture s.kind || instArea s.kind) = true
      ∧ (instArchitecture s.kind = true → s.velocityY ≤ 0) ∧ s.toBeRemoved = false

/-- Claim C1: for every entity and tick — whatever its scripted
animation components — `Shape.update` adds
`((primaryVelocity * D + secondaryVelocity + orbitalVelocity) * T) * Δt`
to the position and `angularVelocity * D * T * Δt` to the rotation
(Δt in seconds is `delta / 1000` for `delta` in milliseconds); with
zero scripted animation the new position is exactly
`position + baseVelocity * difficulty * timeScale * Δt`; and two
consecutive small ticks equal one large tick exactly, again for
arbitrary animation components. -/
theorem c1_kinematic_update (s : Shape) (D T delta : ℚ) :
    (s.update D T delta).x
      = s.x + ((s.velocityX * D + s.secondVelocityX + s.circularVelocityX) * T) * (delta / 1000)
  ∧ (s.update D T delta).y
      = s.y + ((s.velocityY * D + s.secondVelocityY + s.circularVelocityY) * T) * (delta / 1000)
  ∧ (s.update D T delta).rotation = s.rotation + s.angularVelocity * D * T * (delta / 1000)
  ∧ (s.secondVelocityX = 0 → s.circularVelocityX = 0 →
       (s.update D T delta).x = s.x + s.velocityX * D * T * (delta / 1000))
  ∧ (s.secondVelocityY = 0 → s.circularVelocityY = 0 →
       (s.update D T delta).y = s.y + s.velocityY * D * T * (delta / 1000))
  ∧ (∀ d1 d2 : ℚ, ((s.update D T d1).update D T d2).x
      = s.x + ((s.velocityX * D + s.secondVelocityX + s.circularVelocityX) * T) * ((d1 + d2) / 1000)
      ∧ ((s.update D T d1).update D T d2).y
      = s.y + ((s.velocityY * D + s.secondVelocityY + s.circularVelocityY) * T) * ((d1 + d2) / 1000)
      ∧ ((s.update D T d1).update D T d2).rotation
      = s.rotation + s.angularVelocity * D * T * ((d1 + d2) / 1000)) := by
  refine ⟨?_, ?_, ?_, ?_, ?_, ?_⟩
  · simp only [Shape.update]; ring
  · simp only [Shape.update]; ring
  · simp only [Shape.update]; ring
  · intro h1 h3
    simp only [Shape.update, h1, h3]; ring
  · intro h2 h4
    simp only [Shape.update, h2, h4]; ring
  · intro d1 d2
    refine ⟨?_, ?_, ?_⟩ <;> (simp only [Shape.update]; ring)

/-- Witness for `c1_kinematic_update`: the combined formula at a shape
with active oscillation and orbit animation, and the zero-animation
special case at a plain shape. -/
theorem c1_kinematic_update_witness :
    (({ kind := .triangle, x := 10, velocityX := 5, secondVelocityX := 3,
        circularVelocityX := 2 : Shape }).update 2 1 1000).x = 25
  ∧ (({ kind := .triangle, x := 10, velocityX := 5 : Shape }).update 2 1 1000).x = 20 := by
  constructor
  · have h := (c1_kinematic_update { kind := .triangle, x := 10, velocityX := 5, secondVelocityX := 3, circularVelocityX := 2 : Shape } 2 1 1000).1
    rw [h]; norm_num
  · have h := (c1_kinematic_update { kind := .triangle, x := 10, velocityX := 5 : Shape } 2 1 1000).2.2.2.1 rfl rfl
    rw [h]; norm_num

/-- Claim C6: when the live-entity count reaches zero,
`checkLevelCleared` reports Cleared exactly when
`score >= levelPassableScore` and Failed otherwise. -/
theorem c6_outcome_threshold (st : GameState) (h : st.shapes = []) :
    ((checkLevelCleared st).outcome = some Outcome.cleared ↔ st.levelPassableScore ≤ st.score)
  ∧ ((checkLevelCleared st).outcome = some Outcome.failed ↔ ¬ st.levelPassableScore ≤ st.score) := by
  by_cases hc : st.levelPassableScore ≤ st.score <;>
    simp [checkLevelCleared, h, hc, unlockAchievement]

/-- Witness for `c6_outcome_threshold`: pass threshold 5, a net score
of 6 is Cleared and a net score of 4 is Failed. -/
theorem c6_outcome_threshold_witness :
    (checkLevelCleared { levelPassableScore := 5, score := 6 }).outcome = some Outcome.cleared
  ∧ (checkLevelCleared { levelPassableScore := 5, score := 4 }).outcome = some Outcome.failed := by
  constructor
  · exact (c6_outcome_threshold { levelPassableScore := 5, score := 6 } rfl).1.mpr (by norm_num)
  · exact (c6_outcome_threshold { levelPassableScore := 5, score := 4 } rfl).2.mpr (by norm_num)

/-- Claim C3 counterexample: `takeDamage` has no dying guard and the
click handler stays live during the 250 ms death fade, so a fourth
click on an Armored Target that started at 3 hits drives
`healthPoints` to −1 — "never goes below 0" is false as stated. -/
theorem c3_counterexample :
    ((takeDamage (takeDamage (takeDamage (takeDamage
        { score := 0, shapes := [{ kind := .armored, healthPoints := 3, y := 100 }] }
        0) 0) 0) 0).shapes.get? 0).map Shape.healthPoints = some (-1) := by
  norm_num [takeDamage, removeShape, performDeathAnimation, modifyAt, gameConfigHeight]

/-- Claim C4 counterexample: the `shape.dying` guard in
`handleShapeInteraction` sits after the power-up branches, so a hover
on an already-Dying Intangibility power-up still arms it
(`intangibleActive` flips from false to true) — "a pointer interaction
against an already-Dying entity changes no power-up armed/active flag"
is false as stated. -/
theorem c4_counterexample :
    (handleShapeInteraction
      { intangibleActive := false, intangible := false,
        shapes := [{ kind := .intangible, dying := true, y := 100 }] }
      0 "intangible").intangibleActive = true := by
  simp [handleShapeInteraction, hsiFinish]

/-- Claim C5, evaluation at the failing input: ending intangibility
while the pointer rests on a live Armored Target with 3 hits left
dispatches it through the `instanceof Triangle` branch of
`checkAllShapes` as a plain `'triangle'`, removing it and adding +1 to
the score without any click and without touching `healthPoints` —
contradicting the source's own comments that armored targets are
handled by clicks only. -/
theorem c5_hover_kills_armored :
    ((finishIntangible
        { intangible := true, score := 0,
          shapes := [{ kind := .armored, healthPoints := 3, y := 100 }] }
        (fun _ => true)).score = 1)
  ∧ (((finishIntangible
        { intangible := true, score := 0,
          shapes := [{ kind := .armored, healthPoints := 3, y := 100 }] }
        (fun _ => true)).shapes.get? 0).map (fun s => (s.dying, s.healthPoints))
      = some (true, 3)) := by
  constructor <;>
  · simp [finishIntangible, checkAllShapes, checkAllShapesType, instTriangle,
      instArea, instSquare, instArchitecture, handleShapeInteraction, hsiFinish,
      strStartsWith, removeShape, performDeathAnimation, List.range_succ]
    norm_num [gameConfigHeight, modifyAt]

/-- Claim C10 counterexample: hovering the Resource Zone does not hold
the resource bar at its current level and sweep it back over 4
seconds — `refillAndPauseHealthBar` snaps the fill from 1/2 straight
to 1 with no tween. -/
theorem c10_counterexample :
    ((handleShapeInteraction
        { healthBar := { fillScale := 1/2, dying := true,
                         dyingTween := some { targetScale := 0, duration := 4000 } },
          shapes := [{ kind := .area, y := 100 }] }
        0 "area").healthBar.fillScale = 1)
  ∧ ((1 : ℚ) ≠ 1/2) := by
  constructor
  · simp [handleShapeInteraction, refillAndPauseHealthBar]
  · norm_num

/-- Auxiliary: `modifyAt` preserves length. -/
theorem modifyAt_length (l : List Shape) (j : Nat) (f : Shape → Shape) :
    (modifyAt l j f).length = l.length := by
  induction l generalizing j with
  | nil => rfl
  | cons s rest ih =>
    cases j with
    | zero => rfl
    | succ n => simp [modifyAt, ih]

/-- Auxiliary: the entries of `modifyAt`. -/
theorem get?_modifyAt (l : List Shape) (i j : Nat) (f : Shape → Shape) :
    (modifyAt l j f).get? i = if i = j then (l.get? i).map f else l.get? i := by
  induction l generalizing i j with
  | nil => simp [modifyAt]
  | cons s rest ih =>
    cases j with
    | zero =>
      cases i with
      | zero => simp [modifyAt]
      | succ n => simp [modifyAt]
    | succ m =>
      cases i with
      | zero => simp [modifyAt]
      | succ n => simpa [modifyAt] using ih n m

/-- Auxiliary: fold invariants. -/
theorem foldl_inv {α β : Type _} (P : β → Prop) (f : β → α → β) :
    ∀ (l : List α) (b : β), P b → (∀ x a, P x → P (f x a)) → P (l.foldl f b)
  | [], _, hb, _ => hb
  | a :: l, b, hb, hf => foldl_inv P f l (f b a) (hf b a hb) hf

/-- Auxiliary: a fold whose step fixes `b` returns `b`. -/
theorem foldl_fixed {α β : Type _} (f : β → α → β) (b : β) :
    ∀ (l : List α), (∀ a, f b a = b) → l.foldl f b = b
  | [], _ => rfl
  | a :: l, hf => by rw [List.foldl_cons, hf a]; exact foldl_fixed f b l hf

/-- Auxiliary: `modifyAt` with a function that keeps dying shapes dying
preserves a dying entry. -/
theorem modifyAt_keeps_dying (l : List Shape) (i j : Nat) (f : Shape → Shape)
    (hf : ∀ s, s.dying = true → (f s).dying = true)
    (h : ∃ a, l.get? i = some a ∧ a.dying = true) :
    ∃ a, (modifyAt l j f).get? i = some a ∧ a.dying = true := by
  obtain ⟨a, ha, had⟩ := h
  rw [get?_modifyAt]
  by_cases hij : i = j
  · subst hij
    rw [if_pos rfl, ha]
    exact ⟨f a, rfl, hf a had⟩
  · rw [if_neg hij]
    exact ⟨a, ha, had⟩

/-- Auxiliary: `performDeathAnimation` only touches the sound log and
the shape list, where it at most marks the addressed shape dying. -/
theorem performDeath_eq (st : GameState) (j : Nat) :
    ∃ sp : List String, performDeathAnimation st j =
      { st with
        soundsPlayed := sp,
        shapes := match st.shapes.get? j with
          | none => st.shapes
          | some sh => if sh.dying then st.shapes
                       else modifyAt st.shapes j (fun s => { s with dying := true }) } := by
  unfold performDeathAnimation
  cases hg : st.shapes.get? j with
  | none => exact ⟨st.soundsPlayed, rfl⟩
  | some sh =>
    by_cases hd : sh.dying
    · exact ⟨st.soundsPlayed, by simp [hd]⟩
    · by_cases hy : sh.y ≤ gameConfigHeight + 50
      · exact ⟨"pop" :: st.soundsPlayed, by simp [hd, hy]⟩
      · exact ⟨st.soundsPlayed, by simp [hd, hy]⟩

/-- Auxiliary: `performDeathAnimation` never changes the score. -/
theorem performDeath_score (st : GameState) (j : Nat) :
    (performDeathAnimation st j).score = st.score := by
  obtain ⟨sp, hsp⟩ := performDeath_eq st j
  rw [hsp]

/-- Auxiliary: `performDeathAnimation` keeps a dying entry dying. -/
theorem performDeath_keeps_dying (st : GameState) (i j : Nat)
    (h : ∃ a, st.shapes.get? i = some a ∧ a.dying = true) :
    ∃ a, (performDeathAnimation st j).shapes.get? i = some a ∧ a.dying = true := by
  obtain ⟨sp, hsp⟩ := performDeath_eq st j
  rw [hsp]
  cases hg : st.shapes.get? j with
  | none => simpa using h
  | some sh =>
    by_cases hd : sh.dying
    · simpa [hd] using h
    · simp only [hd, if_false, Bool.false_eq_true]
      exact modifyAt_keeps_dying _ i j _ (fun s _ => rfl) h

/-- Auxiliary: each clear-friendlies sweep step is either the identity
or a move-off-screen-and-remove of the addressed shape. -/
theorem clearFriendliesStep_cases (sf : ℚ) (acc : GameState) (j : Nat) :
    clearFriendliesStep sf acc j = acc ∨
    clearFriendliesStep sf acc j =
      removeShape { acc with shapes := modifyAt acc.shapes j (fun s => { s with y := gameConfigHeight + 100 }) } j := by
  unfold clearFriendliesStep
  cases hg : acc.shapes.get? j with
  | none => exact Or.inl rfl
  | some sn =>
    dsimp only
    by_cases h1 : ((instArchitecture sn.kind || instSquare sn.kind) && !(instArea sn.kind)) = true
    · rw [if_pos h1]
      by_cases h2 : sn.y > -300 * sf * sf
      · rw [if_pos h2]; exact Or.inr rfl
      · rw [if_neg h2]; exact Or.inl rfl
    · rw [if_neg h1]; exact Or.inl rfl

/-- Auxiliary: the clear-friendlies sweep never changes the score and
keeps every dying entry dying. -/
theorem clearFriendliesEffect_inv (st : GameState) (sf : ℚ) (i : Nat)
    (h : ∃ a, st.shapes.get? i = some a ∧ a.dying = true) :
    (clearFriendliesEffect st sf).score = st.score
  ∧ ∃ a, (clearFriendliesEffect st sf).shapes.get? i = some a ∧ a.dying = true := by
  unfold clearFriendliesEffect
  refine foldl_inv
    (fun acc => acc.score = st.score ∧ ∃ a, acc.shapes.get? i = some a ∧ a.dying = true)
    (clearFriendliesStep sf) _ st ⟨rfl, h⟩ ?_
  intro acc j hacc
  rcases clearFriendliesStep_cases sf acc j with hcase | hcase
  · rw [hcase]; exact hacc
  · rw [hcase]
    constructor
    · rw [show removeShape = performDeathAnimation from rfl, performDeath_score]
      exact hacc.1
    · apply performDeath_keeps_dying
      exact modifyAt_keeps_dying _ i j _ (fun s hs => hs) hacc.2

/-- Auxiliary: when the entry at `i` is dying, `hsiFinish` is the
identity. -/
theorem hsiFinish_dying (st : GameState) (i : Nat) (ty : String)
    (h : ∃ a, st.shapes.get? i = some a ∧ a.dying = true) :
    hsiFinish st i ty = st := by
  obtain ⟨a, ha, had⟩ := h
  unfold hsiFinish
  rw [ha]
  simp [had]

/-- Claim C4 amended: an entity transitions to Dying at most once
(`performDeathAnimation` on an already-dying entity is the identity); a
hover interaction against an already-Dying Target / Concealed Target /
Protected Citizen / Static Obstacle is a complete no-op; and no hover
interaction against an already-Dying entity of any type ever changes
the score.  (What the counterexample removes from the original claim:
a hover on a Dying power-up still re-applies its arming/clearing
effect, and armored clicks still decrement hits.) -/
theorem c4_amended (st : GameState) (i : Nat) (sh : Shape)
    (hget : st.shapes.get? i = some sh) (hdying : sh.dying = true) :
    (performDeathAnimation st i = st)
  ∧ (∀ ty, ty = "triangle" ∨ ty = "stealth" ∨ ty = "square" ∨ ty = "architecture" →
       handleShapeInteraction st i ty = st)
  ∧ (∀ ty, (handleShapeInteraction st i ty).score = st.score) := by
  have hD : ∃ a, st.shapes.get? i = some a ∧ a.dying = true := ⟨sh, hget, hdying⟩
  refine ⟨?_, ?_, ?_⟩
  · unfold performDeathAnimation
    rw [hget]
    simp [hdying]
  · intro ty hty
    have hfin := hsiFinish_dying st i ty hD
    unfold handleShapeInteraction
    rw [hget]
    rcases hty with h | h | h | h <;> subst h <;> simp [hfin, strStartsWith]
  · intro ty
    unfold handleShapeInteraction
    rw [hget]
    dsimp only
    by_cases t1 : ty = "area"
    · rw [if_pos t1]
    · rw [if_neg t1]
      by_cases tI : st.intangible = true
      · rw [if_pos tI]
      · rw [if_neg tI]
        by_cases t2 : ty = "clear-friendlies"
        · subst t2
          rw [if_pos rfl]
          have hinv := clearFriendliesEffect_inv st sh.scaleFactor i hD
          rw [hsiFinish_dying _ _ _ hinv.2]
          exact hinv.1
        · rw [if_neg t2]
          by_cases t3 : ty = "intangible"
          · subst t3
            rw [if_pos rfl]
            rw [hsiFinish_dying { st with intangibleActive := true } i _ hD]
          · rw [if_neg t3]
            by_cases t4 : ty = "slowtime"
            · subst t4
              rw [if_pos rfl]
              rw [hsiFinish_dying { st with slowtimeActive := true } i _ hD]
            · rw [if_neg t4]
              by_cases t5 : strStartsWith ty "armored_" = true
              · rw [if_pos t5]
              · rw [if_neg t5]
                rw [hsiFinish_dying st i ty hD]

/-- Witness for `c4_amended`: a dying basic Target ignores both a
repeated death trigger and a hover. -/
theorem c4_amended_witness :
    performDeathAnimation { shapes := [{ kind := .triangle, dying := true, y := 100 }] } 0
      = { shapes := [{ kind := .triangle, dying := true, y := 100 }] }
  ∧ handleShapeInteraction { shapes := [{ kind := .triangle, dying := true, y := 100 }] } 0 "triangle"
      = { shapes := [{ kind := .triangle, dying := true, y := 100 }] } := by
  refine ⟨(c4_amended { shapes := [{ kind := .triangle, dying := true, y := 100 }] } 0
      { kind := .triangle, dying := true, y := 100 } rfl rfl).1, ?_⟩
  exact (c4_amended { shapes := [{ kind := .triangle, dying := true, y := 100 }] } 0
      { kind := .triangle, dying := true, y := 100 } rfl rfl).2.1 "triangle" (Or.inl rfl)

/-- Auxiliary: what one click on an armored target does: decrement the
addressed shape's hits by exactly one; at exactly zero also score +1
and mark it dying. -/
theorem takeDamage_spec (st : GameState) (i : Nat) (s : Shape)
    (hg : st.shapes.get? i = some s) :
    (s.healthPoints - 1 = 0 →
       (takeDamage st i).score = st.score + 1 ∧
       (takeDamage st i).shapes.get? i
         = some { s with healthPoints := s.healthPoints - 1, dying := true })
  ∧ (s.healthPoints - 1 ≠ 0 →
       (takeDamage st i).score = st.score ∧
       (takeDamage st i).shapes.get? i
         = some { s with healthPoints := s.healthPoints - 1 }) := by
  unfold takeDamage
  rw [hg]
  dsimp only
  have hA : (modifyAt st.shapes i (fun s => { s with healthPoints := s.healthPoints - 1 })).get? i
      = some { s with healthPoints := s.healthPoints - 1 } := by
    rw [get?_modifyAt, if_pos rfl, hg]; rfl
  constructor
  · intro h0
    rw [if_pos h0]
    constructor
    · rw [show removeShape = performDeathAnimation from rfl, performDeath_score]
    · obtain ⟨sp, hsp⟩ := performDeath_eq
        { st with shapes := modifyAt st.shapes i (fun s => { s with healthPoints := s.healthPoints - 1 }),
                  score := st.score + 1 } i
      rw [show removeShape = performDeathAnimation from rfl, hsp]
      dsimp only
      rw [hA]
      dsimp only
      by_cases hd : s.dying
      · rw [if_pos (show ({ s with healthPoints := s.healthPoints - 1 } : Shape).dying = true from hd)]
        rw [hA, hd]
      · rw [if_neg (show ¬ ({ s with healthPoints := s.healthPoints - 1 } : Shape).dying = true from hd)]
        rw [get?_modifyAt, if_pos rfl, hA]
        rfl
  · intro h0
    rw [if_neg h0]
    exact ⟨rfl, hA⟩

/-- Claim C3 amended: under click interactions, `remainingHits`
decreases by exactly one per click and never goes below 0 while clicks
land on live (not yet removed/dying) targets: from any count of at
least 1 a click yields a count of at least 0.  An Armored Target with
initial `remainingHits = 3` reaches 0 after exactly three clicks, the
third removing it with score +1 exactly once (not three times).  (What
the counterexample removes from the original claim: a further click
during the 250 ms death fade drives the count to −1.) -/
theorem c3_amended (st : GameState) (arm : Shape)
    (hs : st.shapes.get? 0 = some arm) (_hk : arm.kind = .armored)
    (hhp : arm.healthPoints = 3) :
    (∀ (st' : GameState) (i : Nat) (s' : Shape), st'.shapes.get? i = some s' →
       1 ≤ s'.healthPoints →
       ∃ s'', (takeDamage st' i).shapes.get? i = some s''
         ∧ s''.healthPoints = s'.healthPoints - 1 ∧ 0 ≤ s''.healthPoints)
  ∧ (((takeDamage st 0).shapes.get? 0).map Shape.healthPoints = some 2
     ∧ (takeDamage st 0).score = st.score
     ∧ (((takeDamage (takeDamage st 0) 0).shapes.get? 0).map Shape.healthPoints = some 1)
     ∧ (takeDamage (takeDamage st 0) 0).score = st.score
     ∧ (((takeDamage (takeDamage (takeDamage st 0) 0) 0).shapes.get? 0).map
          (fun s => (s.healthPoints, s.dying)) = some (0, true))
     ∧ (takeDamage (takeDamage (takeDamage st 0) 0) 0).score = st.score + 1) := by
  constructor
  · intro st' i s' hg hpos
    by_cases h0 : s'.healthPoints - 1 = 0
    · obtain ⟨hsc, hshape⟩ := (takeDamage_spec st' i s' hg).1 h0
      exact ⟨_, hshape, rfl, by dsimp only; omega⟩
    · obtain ⟨hsc, hshape⟩ := (takeDamage_spec st' i s' hg).2 h0
      exact ⟨_, hshape, rfl, by dsimp only; omega⟩
  · have h1 := (takeDamage_spec st 0 arm hs).2 (by rw [hhp]; norm_num)
    have h2 := (takeDamage_spec (takeDamage st 0) 0 _ h1.2).2 (by simp [hhp])
    have h3 := (takeDamage_spec (takeDamage (takeDamage st 0) 0) 0 _ h2.2).1 (by simp [hhp])
    refine ⟨?_, h1.1, ?_, ?_, ?_, ?_⟩
    · rw [h1.2]; simp [hhp]
    · rw [h2.2]; simp [hhp]
    · rw [h2.1, h1.1]
    · rw [h3.2]; simp [hhp]
    · rw [h3.1, h2.1, h1.1]

/-- Witness for `c3_amended`: the three-click scenario at a concrete
state. -/
theorem c3_amended_witness :
    (takeDamage (takeDamage (takeDamage
      { score := 0, shapes := [{ kind := .armored, healthPoints := 3, y := 100 }] }
      0) 0) 0).score = 0 + 1 := by
  exact (c3_amended
    { score := 0, shapes := [{ kind := .armored, healthPoints := 3, y := 100 }] }
    { kind := .armored, healthPoints := 3, y := 100 } rfl rfl rfl).2.2.2.2.2.2

/-- Auxiliary: composing two `modifyAt` at the same index. -/
theorem modifyAt_modifyAt (l : List Shape) (j : Nat) (f g : Shape → Shape) :
    modifyAt (modifyAt l j f) j g = modifyAt l j (fun s => g (f s)) := by
  induction l generalizing j with
  | nil => rfl
  | cons a t ih =>
    cases j with
    | zero => rfl
    | succ m => simp [modifyAt, ih]

/-- Auxiliary: `modifyAt` only looks at the value of the addressed
entry. -/
theorem modifyAt_value_congr (l : List Shape) (j : Nat) (a : Shape) (f g : Shape → Shape)
    (hg : l.get? j = some a) (h : f a = g a) :
    modifyAt l j f = modifyAt l j g := by
  induction l generalizing j with
  | nil => rfl
  | cons b t ih =>
    cases j with
    | zero =>
      simp only [List.get?_cons_zero, Option.some.injEq] at hg
      subst hg
      simp [modifyAt, h]
    | succ m =>
      simp only [List.get?_cons_succ] at hg
      simp [modifyAt, ih m hg]

/-- Auxiliary: `modifyAt` past a prefix. -/
theorem modifyAt_append (B : List Shape) (c : Shape) (D : List Shape) (f : Shape → Shape) :
    modifyAt (B ++ c :: D) B.length f = B ++ f c :: D := by
  induction B with
  | nil => rfl
  | cons b t ih => simp [modifyAt, ih]

/-- Auxiliary: the entry at `k` of a list whose first `k` entries were
mapped. -/
theorem get?_take_map_drop (l : List Shape) (k : Nat) (f : Shape → Shape) :
    ((l.take k).map f ++ l.drop k).get? k = l.get? k := by
  induction l generalizing k with
  | nil => simp
  | cons a t ih =>
    cases k with
    | zero => simp
    | succ m => simpa using ih m

/-- Auxiliary: a `get?` hit splits the drop. -/
theorem drop_eq_cons_of_get? (l : List Shape) (k : Nat) (sh : Shape)
    (h : l.get? k = some sh) : l.drop k = sh :: l.drop (k+1) := by
  induction l generalizing k with
  | nil => simp at h
  | cons a t ih =>
    cases k with
    | zero => simp_all
    | succ m => simpa using ih m (by simpa using h)

/-- Auxiliary: a `get?` hit extends the take. -/
theorem take_succ_of_get? (l : List Shape) (k : Nat) (sh : Shape)
    (h : l.get? k = some sh) : l.take (k+1) = l.take k ++ [sh] := by
  induction l generalizing k with
  | nil => simp at h
  | cons a t ih =>
    cases k with
    | zero => simp_all
    | succ m => simp_all [ih m]

/-- Auxiliary: a fold over all positions whose step maps the addressed
shape by a fixed `F` is the map of `F`. -/
theorem foldRange_map (g : GameState → Nat → GameState) (F : Shape → Shape)
    (hsome : ∀ acc j sh, acc.shapes.get? j = some sh →
       g acc j = { acc with shapes := modifyAt acc.shapes j F })
    (hnone : ∀ acc j, acc.shapes.get? j = none → g acc j = acc)
    (st : GameState) :
    ∀ k : Nat, (List.range k).foldl g st
      = { st with shapes := (st.shapes.take k).map F ++ st.shapes.drop k }
  | 0 => by simp
  | (k+1) => by
    rw [List.range_succ, List.foldl_append, List.foldl_cons, List.foldl_nil,
      foldRange_map g F hsome hnone st k]
    cases hk : st.shapes.get? k with
    | none =>
      have hlen : st.shapes.length ≤ k := by
        simpa using List.get?_eq_none.mp hk
      rw [hnone _ k (by rw [get?_take_map_drop]; exact hk)]
      rw [List.take_of_length_le hlen, List.take_of_length_le (Nat.le_succ_of_le hlen),
        List.drop_eq_nil_of_le hlen, List.drop_eq_nil_of_le (Nat.le_succ_of_le hlen)]
    | some sh =>
      rw [hsome _ k sh (by rw [get?_take_map_drop]; exact hk)]
      have hklt : k < st.shapes.length := List.get?_eq_some.mp hk |>.1
      have hdrop := drop_eq_cons_of_get? st.shapes k sh hk
      have htake := take_succ_of_get? st.shapes k sh hk
      have hlenB : ((st.shapes.take k).map F).length = k := by
        simp [List.length_take, Nat.min_eq_left (Nat.le_of_lt hklt)]
      congr 1
      rw [hdrop]
      calc modifyAt ((st.shapes.take k).map F ++ sh :: st.shapes.drop (k+1)) k F
          = modifyAt ((st.shapes.take k).map F ++ sh :: st.shapes.drop (k+1))
              ((st.shapes.take k).map F).length F := by rw [hlenB]
        _ = (st.shapes.take k).map F ++ F sh :: st.shapes.drop (k+1) := modifyAt_append _ _ _ _
        _ = (st.shapes.take (k+1)).map F ++ st.shapes.drop (k+1) := by
              rw [htake]; simp

/-- Auxiliary: `performDeathAnimation` on an off-screen shape plays no
sound. -/
theorem performDeath_eq_offscreen (st : GameState) (j : Nat) (sh : Shape)
    (hg : st.shapes.get? j = some sh) (hy : ¬ sh.y ≤ gameConfigHeight + 50) :
    performDeathAnimation st j =
      { st with shapes := if sh.dying then st.shapes
                          else modifyAt st.shapes j (fun s => { s with dying := true }) } := by
  unfold performDeathAnimation
  rw [hg]
  dsimp only
  by_cases hd : sh.dying
  · simp [hd]
  · simp [hd, hy]

/-- Auxiliary: one step of `clearShapesNoSound` maps the addressed
shape off screen and marks it dying unless already marked for removal;
it plays no sound (the shape was moved below the screen first). -/
theorem clearShapeStep_spec (acc : GameState) (j : Nat) (sh : Shape)
    (hg : acc.shapes.get? j = some sh) :
    clearShapeStep acc j = { acc with shapes := modifyAt acc.shapes j (fun s => { s with y := gameConfigHeight + 100, dying := s.dying || !s.toBeRemoved }) } := by
  unfold clearShapeStep
  rw [hg]
  dsimp only
  have hg1 : (modifyAt acc.shapes j (fun s => { s with y := gameConfigHeight + 100 })).get? j
      = some { sh with y := gameConfigHeight + 100 } := by
    rw [get?_modifyAt, if_pos rfl, hg]; rfl
  rw [hg1]
  dsimp only
  by_cases hrem : sh.toBeRemoved
  · rw [if_neg (by simp [hrem])]
    congr 1
    exact modifyAt_value_congr _ _ sh _ _ hg (by simp [hrem])
  · rw [if_pos (by simp [hrem])]
    rw [show removeShape = performDeathAnimation from rfl]
    rw [performDeath_eq_offscreen _ _ _ hg1 (by norm_num [gameConfigHeight])]
    dsimp only
    by_cases hd : sh.dying
    · rw [if_pos (show ({ sh with y := gameConfigHeight + 100 } : Shape).dying = true from hd)]
      congr 1
      exact modifyAt_value_congr _ _ sh _ _ hg (by simp [hrem, hd])
    · rw [if_neg (show ¬ ({ sh with y := gameConfigHeight + 100 } : Shape).dying = true from hd)]
      rw [modifyAt_modifyAt]
      congr 1
      exact modifyAt_value_congr _ _ sh _ _ hg (by simp [hrem, hd])

/-- Auxiliary: `clearShapesNoSound` maps every shape below the screen,
marks every not-yet-removed shape dying, and changes nothing else — in
particular it plays no sound. -/
theorem clearShapesNoSound_spec (st : GameState) :
    clearShapesNoSound st = { st with shapes := st.shapes.map (fun s => { s with y := gameConfigHeight + 100, dying := s.dying || !s.toBeRemoved }) } := by
  unfold clearShapesNoSound
  have hnone : ∀ (acc : GameState) (j : Nat), acc.shapes.get? j = none → clearShapeStep acc j = acc := by
    intro acc j h
    unfold clearShapeStep
    rw [h]
  rw [foldRange_map clearShapeStep _ (fun acc j sh hg => clearShapeStep_spec acc j sh hg)
        hnone st st.shapes.length]
  simp

/-- Claim C10 amended: hovering the Resource Zone (in any state,
intangible or not) stops depletion and instantly snaps the resource
bar back to full — the fixed 4-second sweep is the depletion started
once hover ends (`decreaseHealthBar` tweens the fill to 0 over
4000 ms, leaving it at its current level when the sweep starts); when
depletion completes, every live entity is cleared (dying or already
marked for removal) without any sound, and the score is reset to
zero. -/
theorem c10_amended (st : GameState) (i : Nat) (sh : Shape)
    (hg : st.shapes.get? i = some sh) :
    (handleShapeInteraction st i "area"
       = { st with healthBar := refillAndPauseHealthBar st.healthBar })
  ∧ (refillAndPauseHealthBar st.healthBar).fillScale = 1
  ∧ (refillAndPauseHealthBar st.healthBar).dying = false
  ∧ (refillAndPauseHealthBar st.healthBar).dyingTween = none
  ∧ (decreaseHealthBar st.healthBar).dyingTween = some { targetScale := 0, duration := 4000 }
  ∧ (decreaseHealthBar st.healthBar).fillScale = st.healthBar.fillScale
  ∧ (healthDepleteComplete st).score = 0
  ∧ (∀ a ∈ (healthDepleteComplete st).shapes, a.dying = true ∨ a.toBeRemoved = true)
  ∧ (healthDepleteComplete st).soundsPlayed = st.soundsPlayed := by
  refine ⟨?_, rfl, rfl, rfl, rfl, rfl, rfl, ?_, ?_⟩
  · unfold handleShapeInteraction
    rw [hg]
    dsimp only
    rw [if_pos rfl]
  · intro a ha
    have : (healthDepleteComplete st).shapes = (clearShapesNoSound st).shapes := rfl
    rw [this, clearShapesNoSound_spec] at ha
    simp only [List.mem_map] at ha
    obtain ⟨s, _, rfl⟩ := ha
    dsimp only
    cases hr : s.toBeRemoved
    · left; simp [hr]
    · right; rfl
  · have : (healthDepleteComplete st).soundsPlayed = (clearShapesNoSound st).soundsPlayed := rfl
    rw [this, clearShapesNoSound_spec]

/-- Witness for `c10_amended` at a concrete state mid-depletion. -/
theorem c10_amended_witness :
    (healthDepleteComplete
      { score := 7, healthBar := { fillScale := 1/2, dying := true, dyingTween := some {} },
        shapes := [{ kind := .area, y := 100 }] }).score = 0 := by
  exact (c10_amended
    { score := 7, healthBar := { fillScale := 1/2, dying := true, dyingTween := some {} },
      shapes := [{ kind := .area, y := 100 }] }
    0 { kind := .area, y := 100 } rfl).2.2.2.2.2.2.1

/-- Auxiliary: a `get?` hit is a member. -/
theorem mem_of_get? (l : List Shape) (j : Nat) (a : Shape) (h : l.get? j = some a) : a ∈ l := by
  induction l generalizing j with
  | nil => simp at h
  | cons b t ih =>
    cases j with
    | zero => simp_all
    | succ m => exact List.mem_cons_of_mem b (ih m (by simpa using h))

/-- Auxiliary: members of `modifyAt` are old members or the image of
the addressed entry. -/
theorem mem_modifyAt (l : List Shape) (j : Nat) (f : Shape → Shape) (s : Shape)
    (h : s ∈ modifyAt l j f) :
    s ∈ l ∨ ∃ a, l.get? j = some a ∧ s = f a := by
  induction l generalizing j with
  | nil => simp [modifyAt] at h
  | cons b t ih =>
    cases j with
    | zero =>
      rcases List.mem_cons.mp h with h | h
      · exact Or.inr ⟨b, rfl, h⟩
      · exact Or.inl (List.mem_cons_of_mem b h)
    | succ m =>
      rcases List.mem_cons.mp h with h | h
      · subst h; exact Or.inl (List.mem_cons_self s t)
      · rcases ih m h with h' | ⟨a, ha, hs⟩
        · exact Or.inl (List.mem_cons_of_mem b h')
        · exact Or.inr ⟨a, by simpa using ha, hs⟩

/-- Auxiliary: predicates distribute over `ite`. -/
theorem ite_pred {β : Type _} {c : Prop} [Decidable c] (P : β → Prop) {x y : β}
    (hx : P x) (hy : P y) : P (if c then x else y) := by
  split
  · exact hx
  · exact hy

/-- Auxiliary: shape predicates stable under the dying-setter survive
`performDeathAnimation`. -/
theorem performDeath_mem_pred (Q : Shape → Prop) (hQ : ∀ s, Q s → Q { s with dying := true })
    (acc : GameState) (j : Nat) (hpred : ∀ s ∈ acc.shapes, Q s) :
    ∀ s ∈ (performDeathAnimation acc j).shapes, Q s := by
  obtain ⟨sp, hsp⟩ := performDeath_eq acc j
  rw [hsp]
  intro s hs
  simp only at hs
  split at hs
  · exact hpred s hs
  · split at hs
    · exact hpred s hs
    · rcases mem_modifyAt _ _ _ _ hs with h | ⟨a, ha, rfl⟩
      · exact hpred s h
      · exact hQ a (hpred a (mem_of_get? _ _ _ ha))

/-- Auxiliary: `performDeathAnimation` preserves shape count. -/
theorem performDeath_length (acc : GameState) (j : Nat) :
    (performDeathAnimation acc j).shapes.length = acc.shapes.length := by
  obtain ⟨sp, hsp⟩ := performDeath_eq acc j
  rw [hsp]
  simp only
  split
  · rfl
  · split
    · rfl
    · exact modifyAt_length _ _ _

/-- Auxiliary: `performDeathAnimation` leaves the outcome alone. -/
theorem performDeath_outcome (acc : GameState) (j : Nat) :
    (performDeathAnimation acc j).outcome = acc.outcome := by
  obtain ⟨sp, hsp⟩ := performDeath_eq acc j
  rw [hsp]

/-- Auxiliary: `performDeathAnimation` on an off-screen shape leaves
the sound log alone. -/
theorem performDeath_sounds_offscreen (acc : GameState) (j : Nat) (sh : Shape)
    (hg : acc.shapes.get? j = some sh) (hy : ¬ sh.y ≤ gameConfigHeight + 50) :
    (performDeathAnimation acc j).soundsPlayed = acc.soundsPlayed := by
  rw [performDeath_eq_offscreen acc j sh hg hy]

/-- Auxiliary: the kinematic update leaves the class alone. -/
theorem shapeUpdate_kind (s : Shape) (D T d : ℚ) : (Shape.update s D T d).kind = s.kind := rfl

/-- Auxiliary: the kinematic update leaves the dying flag alone. -/
theorem shapeUpdate_dying (s : Shape) (D T d : ℚ) : (Shape.update s D T d).dying = s.dying := rfl

/-- Auxiliary: the kinematic update leaves the vertical velocity
alone. -/
theorem shapeUpdate_velocityY (s : Shape) (D T d : ℚ) :
    (Shape.update s D T d).velocityY = s.velocityY := rfl

/-- Auxiliary: the kinematic update leaves the removal mark alone. -/
theorem shapeUpdate_toBeRemoved (s : Shape) (D T d : ℚ) :
    (Shape.update s D T d).toBeRemoved = s.toBeRemoved := rfl



/-- Auxiliary: the spared-flag stage only touches flags and the
resource bar. -/
theorem spareFlagsStage_frame (sh : Shape) (acc : GameState) :
    (spareFlagsStage sh acc).shapes = acc.shapes
  ∧ (spareFlagsStage sh acc).soundsPlayed = acc.soundsPlayed
  ∧ (spareFlagsStage sh acc).outcome = acc.outcome := by
  unfold spareFlagsStage
  refine ⟨?_, ?_, ?_⟩ <;> dsimp only <;> (repeat' split) <;> rfl

/-- Auxiliary: the resource-bar reveal stage only touches the bar and
its shown flag. -/
theorem areaShowStage_frame (sh : Shape) (acc : GameState) :
    (areaShowStage sh acc).shapes = acc.shapes
  ∧ (areaShowStage sh acc).soundsPlayed = acc.soundsPlayed
  ∧ (areaShowStage sh acc).outcome = acc.outcome := by
  unfold areaShowStage
  refine ⟨?_, ?_, ?_⟩ <;> dsimp only <;> (repeat' split) <;> rfl

/-- Auxiliary: the death-plane stage applied to the shape stored at
`j` preserves the sound log (the shape is below the death plane, hence
off screen when removed), the shape count, the outcome, and any shape
classification stable under dying. -/
theorem deathPlaneStage_static (sh : Shape) (j : Nat) (acc : GameState)
    (S0 : List String) (N0 : Nat) (O0 : Option Outcome)
    (hg : acc.shapes.get? j = some sh)
    (hsnd : acc.soundsPlayed = S0) (hlen : acc.shapes.length = N0) (hout : acc.outcome = O0)
    (hmem : ∀ s ∈ acc.shapes, (instArchitecture s.kind || instArea s.kind) = true
      ∧ (instArchitecture s.kind = true → s.velocityY ≤ 0) ∧ s.toBeRemoved = false) :
    (deathPlaneStage sh j acc).soundsPlayed = S0
  ∧ (deathPlaneStage sh j acc).shapes.length = N0
  ∧ (deathPlaneStage sh j acc).outcome = O0
  ∧ (∀ s ∈ (deathPlaneStage sh j acc).shapes,
      (instArchitecture s.kind || instArea s.kind) = true
      ∧ (instArchitecture s.kind = true → s.velocityY ≤ 0) ∧ s.toBeRemoved = false) := by
  unfold deathPlaneStage
  by_cases hy : sh.y > gameConfigHeight + 50
  · rw [if_pos hy]
    obtain ⟨hfsh, hfsnd, hfout⟩ := spareFlagsStage_frame sh (removeShape acc j)
    refine ⟨?_, ?_, ?_, ?_⟩
    · rw [hfsnd, show removeShape = performDeathAnimation from rfl,
        performDeath_sounds_offscreen _ _ _ hg (not_le.mpr hy)]
      exact hsnd
    · rw [hfsh, show removeShape = performDeathAnimation from rfl, performDeath_length]
      exact hlen
    · rw [hfout, show removeShape = performDeathAnimation from rfl, performDeath_outcome]
      exact hout
    · rw [hfsh]
      exact performDeath_mem_pred _ (fun s hs => hs) _ j hmem
  · rw [if_neg hy]
    exact ⟨hsnd, hlen, hout, hmem⟩

/-- Auxiliary: one tick step over a set of only static
(non-descending) Architecture / Area shapes keeps the
`onlyArchitecture` flag, the sound log, the shape count, the outcome
and the shape classification invariant. -/
theorem shapeTickStep_static_inv (delta : ℚ) (S0 : List String) (N0 : Nat) (O0 : Option Outcome)
    (p : GameState × Bool) (j : Nat) (hp : StaticInv S0 N0 O0 p) :
    StaticInv S0 N0 O0 (shapeTickStep delta p j) := by
  obtain ⟨hflag, hsnd, hlen, hout, hall⟩ := hp
  unfold shapeTickStep
  cases hg0 : p.1.shapes.get? j with
  | none => exact ⟨hflag, hsnd, hlen, hout, hall⟩
  | some s0 =>
    have hs0 := hall s0 (mem_of_get? _ _ _ hg0)
    dsimp only
    have hg1 : (modifyAt p.1.shapes j (fun s => Shape.update s p.1.difficultyAdjustment p.1.slowtimeFactor delta)).get? j
        = some (Shape.update s0 p.1.difficultyAdjustment p.1.slowtimeFactor delta) := by
      rw [get?_modifyAt, if_pos rfl, hg0]; rfl
    have hallA : ∀ s ∈ modifyAt p.1.shapes j (fun s => Shape.update s p.1.difficultyAdjustment p.1.slowtimeFactor delta),
        (instArchitecture s.kind || instArea s.kind) = true
        ∧ (instArchitecture s.kind = true → s.velocityY ≤ 0) ∧ s.toBeRemoved = false := by
      intro s hs
      rcases mem_modifyAt _ _ _ _ hs with h | ⟨a, ha, rfl⟩
      · exact hall s h
      · exact hall a (mem_of_get? _ _ _ ha)
    have hlenA : (modifyAt p.1.shapes j (fun s => Shape.update s p.1.difficultyAdjustment p.1.slowtimeFactor delta)).length = N0 := by
      rw [modifyAt_length]; exact hlen
    rw [hg1]
    dsimp only
    simp only [shapeUpdate_kind, shapeUpdate_dying, shapeUpdate_velocityY, shapeUpdate_toBeRemoved]
    have honly : (if (!(instArchitecture s0.kind || instArea s0.kind)) = true then false
        else if (instArchitecture s0.kind && decide (s0.velocityY > 0)) = true then false
        else p.2) = true := by
      rw [if_neg (by simp [hs0.1])]
      rw [if_neg ?hc2, hflag]
      case hc2 =>
        intro hc
        rw [Bool.and_eq_true] at hc
        exact absurd (of_decide_eq_true hc.2) (not_lt.mpr (hs0.2.1 hc.1))
    by_cases hd : s0.dying = true
    · rw [if_neg (by simp [hd])]
      exact ⟨honly, hsnd, hlenA, hout, hallA⟩
    · rw [Bool.not_eq_true] at hd
      rw [if_pos (by rw [hd]; rfl)]
      obtain ⟨hdsnd, hdlen, hdout, hdmem⟩ := deathPlaneStage_static
        (Shape.update s0 p.1.difficultyAdjustment p.1.slowtimeFactor delta) j
        { p.1 with shapes := modifyAt p.1.shapes j (fun s => Shape.update s p.1.difficultyAdjustment p.1.slowtimeFactor delta) }
        S0 N0 O0 hg1 hsnd hlenA hout hallA
      obtain ⟨hash, hasnd, haout⟩ := areaShowStage_frame
        (Shape.update s0 p.1.difficultyAdjustment p.1.slowtimeFactor delta)
        (deathPlaneStage (Shape.update s0 p.1.difficultyAdjustment p.1.slowtimeFactor delta) j
          { p.1 with shapes := modifyAt p.1.shapes j (fun s => Shape.update s p.1.difficultyAdjustment p.1.slowtimeFactor delta) })
      refine ⟨honly, ?_, ?_, ?_, ?_⟩
      · rw [hasnd]; exact hdsnd
      · rw [hash]; exact hdlen
      · rw [haout]; exact hdout
      · rw [hash]; exact hdmem

/-- Auxiliary: one `Level.update` tick over a set of only static
(non-descending) Architecture / Area shapes force-clears: every shape
ends up dying, but the count is unchanged within this very call, no
sound is played, and no outcome is reported. -/
theorem levelUpdate_static (st : GameState) (delta : ℚ)
    (h1 : ∀ s ∈ st.shapes, (instArchitecture s.kind || instArea s.kind) = true)
    (h2 : ∀ s ∈ st.shapes, instArchitecture s.kind = true → s.velocityY ≤ 0)
    (h3 : ∀ s ∈ st.shapes, s.toBeRemoved = false) :
    (levelUpdate st delta).shapes.length = st.shapes.length
  ∧ (∀ s ∈ (levelUpdate st delta).shapes, s.dying = true)
  ∧ (levelUpdate st delta).soundsPlayed = st.soundsPlayed
  ∧ (levelUpdate st delta).architectureSpared = true
  ∧ (levelUpdate st delta).outcome = st.outcome := by
  have hfold : StaticInv st.soundsPlayed st.shapes.length st.outcome
      ((List.range st.shapes.length).foldl (shapeTickStep delta) (st, true)) :=
    foldl_inv _ _ _ _ ⟨rfl, rfl, rfl, rfl, fun s hs => ⟨h1 s hs, h2 s hs, h3 s hs⟩⟩
      (fun x a hx => shapeTickStep_static_inv delta _ _ _ x a hx)
  unfold levelUpdate
  dsimp only
  generalize hq : (List.range st.shapes.length).foldl (shapeTickStep delta) (st, true) = q
  rw [hq] at hfold
  obtain ⟨hflag, hsnd, hlen, hout, hall⟩ := hfold
  rw [if_pos hflag]
  rw [clearShapesNoSound_spec]
  dsimp only
  have hfil : (q.1.shapes.map (fun s => { s with y := gameConfigHeight + 100, dying := s.dying || !s.toBeRemoved })).filter (fun s => !s.toBeRemoved)
      = q.1.shapes.map (fun s => { s with y := gameConfigHeight + 100, dying := s.dying || !s.toBeRemoved }) := by
    rw [List.filter_eq_self]
    intro a ha
    rw [List.mem_map] at ha
    obtain ⟨s, hs, rfl⟩ := ha
    have := (hall s hs).2.2
    dsimp only
    simp [this]
  rw [hfil]
  rw [if_neg (by rw [List.length_map]; exact Nat.lt_irrefl _)]
  refine ⟨?_, ?_, ?_, ?_, ?_⟩
  · dsimp only
    rw [List.length_map]
    exact hlen
  · intro s hs
    dsimp only at hs
    rw [List.mem_map] at hs
    obtain ⟨a, ha, rfl⟩ := hs
    have := (hall a ha).2.2
    dsimp only
    simp [this]
  · exact hsnd
  · rfl
  · exact hout

/-- Claim C8 amended: when all remaining live entities are Static
Obstacles or Resource Zones and no Static Obstacle has net downward
velocity, `Level.update` force-clears without playing the removal
sound: within that one call every entity transitions to Dying and no
sound or outcome is produced — but the live-entity count is unchanged
in that call (it reaches 0 only on a later tick, once the 250 ms death
fades set `toBeRemoved` and the purge filter drops the shapes),
without any pointer interaction. -/
theorem c8_amended (st : GameState) (delta : ℚ)
    (h1 : ∀ s ∈ st.shapes, (instArchitecture s.kind || instArea s.kind) = true)
    (h2 : ∀ s ∈ st.shapes, instArchitecture s.kind = true → s.velocityY ≤ 0)
    (h3 : ∀ s ∈ st.shapes, s.toBeRemoved = false) :
    (∀ s ∈ (levelUpdate st delta).shapes, s.dying = true)
  ∧ (levelUpdate st delta).soundsPlayed = st.soundsPlayed
  ∧ (levelUpdate st delta).shapes.length = st.shapes.length
  ∧ (levelUpdate st delta).architectureSpared = true
  ∧ (levelUpdate st delta).outcome = st.outcome := by
  obtain ⟨hl, hd, hs, ha, ho⟩ := levelUpdate_static st delta h1 h2 h3
  exact ⟨hd, hs, hl, ha, ho⟩

/-- Witness for `c8_amended`: a lone static obstacle is dying after
one update call, silently. -/
theorem c8_amended_witness :
    (∀ s ∈ (levelUpdate { shapes := [{ kind := .architecture, y := 100, velocityY := 0 }] } 16).shapes,
       s.dying = true)
  ∧ (levelUpdate { shapes := [{ kind := .architecture, y := 100, velocityY := 0 }] } 16).soundsPlayed = [] := by
  have h := c8_amended { shapes := [{ kind := .architecture, y := 100, velocityY := 0 }] } 16
    (by intro s hs; rw [List.mem_singleton] at hs; subst hs; rfl)
    (by intro s hs _; rw [List.mem_singleton] at hs; subst hs; norm_num)
    (by intro s hs; rw [List.mem_singleton] at hs; subst hs; rfl)
  exact ⟨h.1, h.2.1⟩

/-- Claim C8 counterexample: a level holding a single static obstacle
does not see its live-entity count drop to 0 within the one update
call — the count is still 1 (the obstacle is merely Dying until its
fade completes on a later tick). -/
theorem c8_counterexample :
    (levelUpdate { shapes := [{ kind := .architecture, y := 100, velocityY := 0 }] } 16).shapes.length = 1
  ∧ (levelUpdate { shapes := [{ kind := .architecture, y := 100, velocityY := 0 }] } 16).shapes.length ≠ 0 := by
  have h := levelUpdate_static { shapes := [{ kind := .architecture, y := 100, velocityY := 0 }] } 16
    (by intro s hs; rw [List.mem_singleton] at hs; subst hs; rfl)
    (by intro s hs _; rw [List.mem_singleton] at hs; subst hs; norm_num)
    (by intro s hs; rw [List.mem_singleton] at hs; subst hs; rfl)
  refine ⟨h.1, ?_⟩
  rw [h.1]
  exact Nat.one_ne_zero

/-- Auxiliary: scheduling well-formed animation entries succeeds, and
every scheduled event carries the generation of its creator. -/
theorem scheduleAnimEntries_ok (gen : Nat) (diff : ℚ) (n : Nat) :
    ∀ entries : List (ℚ × List ℚ), (∀ e ∈ entries, e.2.length = n) →
      ∃ evs, scheduleAnimEntries gen diff n entries = .ok evs ∧ ∀ ev ∈ evs, ev.gen = gen
  | [], _ => ⟨[], rfl, by intro ev h; simp at h⟩
  | (delay, params) :: rest, h => by
    obtain ⟨evs, hok, hg⟩ := scheduleAnimEntries_ok gen diff n rest
      (fun e he => h e (List.mem_cons_of_mem _ he))
    refine ⟨{ gen := gen, delay := delay / diff } :: evs, ?_, ?_⟩
    · unfold scheduleAnimEntries
      rw [if_pos (h (delay, params) (List.mem_cons_self _ _)), hok]
    · intro ev hev
      rcases List.mem_cons.mp hev with rfl | hev
      · rfl
      · exact hg ev hev

/-- Auxiliary: whatever events `scheduleAnimEntries` returns carry its
generation. -/
theorem scheduleAnimEntries_gens (gen : Nat) (diff : ℚ) (n : Nat) :
    ∀ (entries : List (ℚ × List ℚ)) (evs : List TimeEvent),
      scheduleAnimEntries gen diff n entries = .ok evs → ∀ ev ∈ evs, ev.gen = gen
  | [], evs, hok => by
    unfold scheduleAnimEntries at hok
    cases hok
    intro ev h
    simp at h
  | (delay, params) :: rest, evs, hok => by
    unfold scheduleAnimEntries at hok
    split at hok
    · split at hok
      · cases hok
      · cases hok
        intro ev hev
        rcases List.mem_cons.mp hev with rfl | hev
        · rfl
        · exact scheduleAnimEntries_gens gen diff n rest _ (by assumption) ev hev
    · cases hok

/-- Auxiliary: circular-movement scheduling on a well-formed parameter
list succeeds and tags its events with the creator's generation. -/
theorem animateCircularEvents_ok (gen : Nat) (diff : ℚ) (params : List ℚ)
    (h : params.length = 0 ∨ params.length = 5) :
    ∃ evs, animateCircularEvents gen diff params = .ok evs ∧ ∀ ev ∈ evs, ev.gen = gen := by
  unfold animateCircularEvents
  rcases h with h | h
  · exact ⟨[], by rw [if_pos h], by intro ev hev; simp at hev⟩
  · refine ⟨[{ gen := gen, delay := params.headI / diff }], ?_, ?_⟩
    · rw [if_neg (by rw [h]; norm_num), if_pos h]
    · intro ev hev
      rcases List.mem_cons.mp hev with rfl | hev
      · rfl
      · simp at hev

/-- Auxiliary: whatever events `animateCircularEvents` returns carry
its generation. -/
theorem animateCircularEvents_gens (gen : Nat) (diff : ℚ) (params : List ℚ)
    (evs : List TimeEvent) (hok : animateCircularEvents gen diff params = .ok evs) :
    ∀ ev ∈ evs, ev.gen = gen := by
  unfold animateCircularEvents at hok
  split at hok
  · cases hok
    intro ev h
    simp at h
  · split at hok
    · cases hok
      intro ev hev
      rcases List.mem_cons.mp hev with rfl | hev
      · rfl
      · simp at hev
    · cases hok

/-- Auxiliary: the spawn core preserves the reload invariant (it adds
only current-generation events and shapes and touches no power-up
state). -/
theorem spawnShapeCore_reloadInv (G : Nat) (B : GameState) (k : ShapeKind) (ty : String)
    (x y vX vY aV : ℚ) (vd sd md : List (ℚ × List ℚ)) (cd : List ℚ) (st' : GameState)
    (hok : spawnShapeCore B k ty x y vX vY aV vd sd md cd = .ok st')
    (hgen : B.gen = G) (hev : ∀ e ∈ B.timeEvents, e.gen = G)
    (hsh : ∀ s ∈ B.shapes, s.gen = G ∨ s.dying = true)
    (hi : B.intangible = false) (hia : B.intangibleActive = false)
    (hsl : B.slowtime = false) (hsa : B.slowtimeActive = false)
    (hsf : B.slowtimeFactor = 1) (hsc : B.score = 0) : ReloadInv G st' := by
  unfold spawnShapeCore at hok
  split at hok
  · cases hok
  · rename_i ev1 hev1
    split at hok
    · cases hok
    · rename_i ev2 hev2
      split at hok
      · cases hok
      · rename_i ev3 hev3
        split at hok
        · cases hok
        · rename_i ev4 hev4
          cases hok
          refine ⟨hgen, ?_, ?_, hi, hia, hsl, hsa, hsf, hsc⟩
          · intro e he
            dsimp only at he
            rcases List.mem_append.mp he with he | he
            · rcases List.mem_append.mp he with he | he
              · rcases List.mem_append.mp he with he | he
                · rcases List.mem_append.mp he with he | he
                  · exact hev e he
                  · rw [scheduleAnimEntries_gens _ _ _ _ _ hev1 e he]; exact hgen
                · rw [scheduleAnimEntries_gens _ _ _ _ _ hev2 e he]; exact hgen
              · rw [scheduleAnimEntries_gens _ _ _ _ _ hev3 e he]; exact hgen
            · rw [animateCircularEvents_gens _ _ _ _ hev4 e he]; exact hgen
          · intro s hs
            dsimp only at hs
            rcases List.mem_append.mp hs with hs | hs
            · exact hsh s hs
            · rw [List.mem_singleton] at hs
              subst hs
              left
              exact hgen

/-- Auxiliary: `spawnShape` preserves the reload invariant. -/
theorem spawnShape_reloadInv (G : Nat) (st0 : GameState) (ty : String) (x y vX vY aV : ℚ)
    (vd sd md : List (ℚ × List ℚ)) (cd : List ℚ) (st' : GameState)
    (hok : spawnShape st0 ty x y vX vY aV vd sd md cd = .ok st')
    (hP : ReloadInv G st0) : ReloadInv G st' := by
  obtain ⟨hgen, hev, hsh, hi, hia, hsl, hsa, hsf, hsc⟩ := hP
  unfold spawnShape at hok
  split at hok
  · cases hok
  · rename_i k hk
    dsimp only at hok
    split at hok
    · exact spawnShapeCore_reloadInv G _ k ty x y vX vY aV vd sd md cd st' hok
        hgen hev hsh hi hia hsl hsa hsf hsc
    · split at hok
      · exact spawnShapeCore_reloadInv G _ k ty x y vX vY aV vd sd md cd st' hok
          hgen hev hsh hi hia hsl hsa hsf hsc
      · exact spawnShapeCore_reloadInv G _ k ty x y vX vY aV vd sd md cd st' hok
          hgen hev hsh hi hia hsl hsa hsf hsc

/-- Auxiliary: when the pointer is inside no shape, the catch-up
containment pass is a no-op. -/
theorem checkAllShapes_id (st : GameState) (contains : Shape → Bool)
    (h : ∀ s ∈ st.shapes, contains s = false) : checkAllShapes st contains = st := by
  unfold checkAllShapes
  apply foldl_fixed
  intro j
  dsimp only
  cases hg : st.shapes.get? j with
  | none => rfl
  | some sh =>
    have hm : sh ∈ st.shapes := List.get?_mem hg
    dsimp only
    cases hty : checkAllShapesType sh.kind with
    | none => rfl
    | some ty =>
      dsimp only
      simp [h sh hm]

/-- Auxiliary: the blackout scheduler preserves the reload invariant
(its fade events carry the current generation). -/
theorem animateBlackout_reloadInv (G : Nat) (st : GameState) (fades : List (ℚ × ℚ × ℚ))
    (hP : ReloadInv G st) : ReloadInv G (animateBlackout st fades) := by
  obtain ⟨hgen, hev, hsh, hi, hia, hsl, hsa, hsf, hsc⟩ := hP
  unfold animateBlackout
  split
  · exact ⟨hgen, hev, hsh, hi, hia, hsl, hsa, hsf, hsc⟩
  · refine ⟨hgen, ?_, hsh, hi, hia, hsl, hsa, hsf, hsc⟩
    intro e he
    dsimp only at he
    rcases List.mem_append.mp he with he | he
    · exact hev e he
    · obtain ⟨f, hf, rfl⟩ := List.mem_map.mp he
      exact hgen

/-- Auxiliary: spawning an architecture polygon preserves the reload
invariant (the new shape is tagged with the current generation). -/
theorem spawnArchitecture_reloadInv (G : Nat) (st : GameState) (points : List (ℚ × ℚ)) (velY : ℚ)
    (hP : ReloadInv G st) : ReloadInv G (spawnArchitecture st points velY) := by
  obtain ⟨hgen, hev, hsh, hi, hia, hsl, hsa, hsf, hsc⟩ := hP
  refine ⟨hgen, hev, ?_, hi, hia, hsl, hsa, hsf, hsc⟩
  intro s hs
  dsimp only [spawnArchitecture] at hs
  rcases List.mem_append.mp hs with hs | hs
  · exact hsh s hs
  · rw [List.mem_singleton] at hs
    subst hs
    left
    exact hgen

/-- Auxiliary: one interpreted script line preserves the reload
invariant. -/
theorem processLevelData_reloadInv (G : Nat) (st st' : GameState) (line : List Datum)
    (hok : processLevelData st line = .ok st') (hP : ReloadInv G st) : ReloadInv G st' := by
  unfold processLevelData at hok
  dsimp only at hok
  split at hok
  · cases hok
    obtain ⟨hgen, hev, hsh, hi, hia, hsl, hsa, hsf, hsc⟩ := hP
    exact ⟨hgen, hev, hsh, hi, hia, hsl, hsa, hsf, hsc⟩
  · split at hok
    · split at hok
      · cases hok
        exact animateBlackout_reloadInv G st _ hP
      · cases hok
        obtain ⟨hgen, hev, hsh, hi, hia, hsl, hsa, hsf, hsc⟩ := hP
        exact ⟨hgen, hev, hsh, hi, hia, hsl, hsa, hsf, hsc⟩
    · split at hok
      · cases hok
        exact spawnArchitecture_reloadInv G st _ _ hP
      · split at hok
        · exact spawnShape_reloadInv G st _ _ _ _ _ _ _ _ _ _ st' hok hP
        · cases hok

/-- Auxiliary: interpreting a whole script preserves the reload
invariant. -/
theorem processScript_reloadInv (G : Nat) :
    ∀ (script : List (List Datum)) (st st' : GameState),
      processScript st script = .ok st' → ReloadInv G st → ReloadInv G st'
  | [], st, st', hok, hP => by
      unfold processScript at hok
      cases hok
      exact hP
  | line :: rest, st, st', hok, hP => by
      unfold processScript at hok
      split at hok
      · cases hok
      · rename_i st1 h1
        exact processScript_reloadInv G rest st1 st' hok (processLevelData_reloadInv G st st1 line h1 hP)

/-- Auxiliary: with the pointer inside no shape, resetting the level
state is the pure flag/bookkeeping update read off the source. -/
theorem resetLevelState_spec (st : GameState) (contains : Shape → Bool)
    (hc : ∀ s ∈ st.shapes, contains s = false) :
    resetLevelState st contains =
      { st with nextId := 0, squaresSpared := true, architectureSpared := true,
                trianglesSpared := true, intangibleActive := false, intangible := false,
                slowtimeActive := false, slowtime := false, slowtimeFactor := 1,
                healthBar := hideHealthBarInstant st.healthBar, showAreaHP := false,
                outcome := none } := by
  unfold resetLevelState resetPowerUpsAndEffects finishIntangible finishSlowtime
  dsimp only
  rw [checkAllShapes_id
        { st with nextId := 0, squaresSpared := true, architectureSpared := true,
                  trianglesSpared := true, intangibleActive := false, intangible := false }
        contains hc]

/-- Auxiliary: resetting the level state of a zero-score state holding
only dying shapes (none hovered) establishes the reload invariant. -/
theorem resetLevelState_reloadInv (G : Nat) (st : GameState) (contains : Shape → Bool)
    (hgen : st.gen = G) (hev : ∀ e ∈ st.timeEvents, e.gen = G)
    (hsh : ∀ s ∈ st.shapes, s.dying = true)
    (hc : ∀ s ∈ st.shapes, contains s = false)
    (hsc : st.score = 0) : ReloadInv G (resetLevelState st contains) := by
  rw [resetLevelState_spec st contains hc]
  exact ⟨hgen, hev, fun s hs => Or.inr (hsh s hs), rfl, rfl, rfl, rfl, rfl, hsc⟩

/-- Claim C9: reloading a level (provided the pointer is not hovering
below the death plane, where the cleared corpses are parked) clears
the previous level's entities, resets the power-up flags and the time
scale, cancels every pending scheduled task of the previous load, and
re-populates only from the new script: in the loaded state every
pending scheduled task and every non-dying shape carries the new load
generation, so no task from the old level can mutate any new entity. -/
theorem c9_reload_resets (st : GameState) (script : List (List Datum)) (contains : Shape → Bool)
    (st' : GameState)
    (hc : ∀ s : Shape, gameConfigHeight + 50 < s.y → contains s = false)
    (hok : loadCurrentLevel st script contains = .ok st') :
    st'.gen = st.gen + 1 ∧ (∀ e ∈ st'.timeEvents, e.gen = st.gen + 1)
    ∧ (∀ s ∈ st'.shapes, s.gen = st.gen + 1 ∨ s.dying = true)
    ∧ st'.intangible = false ∧ st'.intangibleActive = false
    ∧ st'.slowtime = false ∧ st'.slowtimeActive = false
    ∧ st'.slowtimeFactor = 1 ∧ st'.score = 0 := by
  unfold loadCurrentLevel loadLevel at hok
  dsimp only at hok
  rw [clearShapesNoSound_spec] at hok
  dsimp only at hok
  have hres : ReloadInv (st.gen + 1) st' := by
    refine processScript_reloadInv (st.gen + 1) script _ st' hok
      (resetLevelState_reloadInv _ _ contains ?_ ?_ ?_ ?_ ?_)
    · rfl
    · intro e he
      dsimp only at he
      simp at he
    · intro s hs
      dsimp only at hs
      rw [List.mem_filter] at hs
      obtain ⟨hsm, hsg⟩ := hs
      obtain ⟨a, ha, rfl⟩ := List.mem_map.mp hsm
      dsimp only at hsg ⊢
      rw [Bool.not_eq_true'] at hsg
      rw [hsg]
      simp
    · intro s hs
      dsimp only at hs
      rw [List.mem_filter] at hs
      obtain ⟨hsm, _⟩ := hs
      obtain ⟨a, ha, rfl⟩ := List.mem_map.mp hsm
      apply hc
      dsimp only
      norm_num [gameConfigHeight]
    · rfl
  exact hres

/-- Witness for C9: a concrete reload — old state at generation 0 with
a pending timer, a stale score and live power-ups — loads a one-line
script and lands in the fully reset generation-1 state. -/
theorem c9_reload_resets_witness :
    loadCurrentLevel
        { score := 3, intangibleActive := true, slowtime := true,
          timeEvents := [{ gen := 0, delay := 7 }] }
        [[Datum.num 5]] (fun _ => false)
      = .ok { levelPassableScore := 5, healthBar := { dying := false }, gen := 1 }
    ∧ ({ levelPassableScore := 5, healthBar := { dying := false }, gen := 1 } : GameState).gen = 0 + 1
    ∧ ({ levelPassableScore := 5, healthBar := { dying := false }, gen := 1 } : GameState).slowtimeFactor = 1
    ∧ ({ levelPassableScore := 5, healthBar := { dying := false }, gen := 1 } : GameState).score = 0 := by
  have h := c9_reload_resets
      { score := 3, intangibleActive := true, slowtime := true,
        timeEvents := [{ gen := 0, delay := 7 }] }
      [[Datum.num 5]] (fun _ => false)
      { levelPassableScore := 5, healthBar := { dying := false }, gen := 1 }
      (fun s h => rfl) rfl
  exact ⟨rfl, h.1, h.2.2.2.2.2.2.2.1, h.2.2.2.2.2.2.2.2⟩

/-- Auxiliary: with well-formed animation families the spawn core
succeeds and appends exactly one shape of the selected kind. -/
theorem spawnShapeCore_shapes (st : GameState) (k : ShapeKind) (ty : String) (x y vX vY aV : ℚ)
    (vd sd md : List (ℚ × List ℚ)) (cd : List ℚ)
    (h3 : ∀ a ∈ vd, a.2.length = 3) (h2 : ∀ a ∈ sd, a.2.length = 2)
    (h4 : ∀ a ∈ md, a.2.length = 4) (hcd : cd.length = 0 ∨ cd.length = 5) :
    ∃ st', spawnShapeCore st k ty x y vX vY aV vd sd md cd = .ok st'
           ∧ st'.shapes.map Shape.kind = st.shapes.map Shape.kind ++ [k] := by
  obtain ⟨e1, he1, hg1⟩ := scheduleAnimEntries_ok st.gen st.difficultyAdjustment 3 vd h3
  obtain ⟨e2, he2, hg2⟩ := scheduleAnimEntries_ok st.gen st.difficultyAdjustment 2 sd h2
  obtain ⟨e3, he3, hg3⟩ := scheduleAnimEntries_ok st.gen st.difficultyAdjustment 4 md h4
  obtain ⟨e4, he4, hg4⟩ := animateCircularEvents_ok st.gen st.difficultyAdjustment cd hcd
  refine ⟨{ st with timeEvents := st.timeEvents ++ e1 ++ e2 ++ e3 ++ e4, shapes := st.shapes ++ [{ id := st.nextId, gen := st.gen, kind := k, x := x, y := y, velocityX := vX, velocityY := vY, angularVelocity := aV, healthPoints := if k = .armored then lastCharDigit ty else 0 }], nextId := st.nextId + 1 }, ?_, ?_⟩
  · unfold spawnShapeCore
    rw [he1, he2, he3, he4]
  · dsimp only
    rw [List.map_append]
    rfl

/-- Auxiliary: with a recognised kind label and well-formed animation
families, `spawnShape` succeeds and appends exactly one shape of that
kind. -/
theorem spawnShape_kind (st : GameState) (ty : String) (k : ShapeKind) (x y vX vY aV : ℚ)
    (vd sd md : List (ℚ × List ℚ)) (cd : List ℚ)
    (hk : labelKind ty = some k)
    (h3 : ∀ a ∈ vd, a.2.length = 3) (h2 : ∀ a ∈ sd, a.2.length = 2)
    (h4 : ∀ a ∈ md, a.2.length = 4) (hcd : cd.length = 0 ∨ cd.length = 5) :
    ∃ st', spawnShape st ty x y vX vY aV vd sd md cd = .ok st'
           ∧ st'.shapes.map Shape.kind = st.shapes.map Shape.kind ++ [k] := by
  unfold spawnShape
  rw [hk]
  dsimp only
  split
  · exact spawnShapeCore_shapes { st with trianglesSpared := false } k ty x y vX vY aV vd sd md cd h3 h2 h4 hcd
  · split
    · exact spawnShapeCore_shapes { st with squaresSpared := false } k ty x y vX vY aV vd sd md cd h3 h2 h4 hcd
    · exact spawnShapeCore_shapes st k ty x y vX vY aV vd sd md cd h3 h2 h4 hcd

/-- Claim C7: the script interpreter classifies every line by tuple
length alone — length 1 sets the passable score, length 2 headed by
`'black'` schedules the blackout fades, length 3 spawns an
architecture polygon, and length 10 spawns a moving shape whose
variant is selected by its kind label (appending exactly one shape of
that kind when its animation families are well-formed); any line of
any other length, and any length-10 line with an unknown kind label,
raises `"Not Implemented"`, which aborts the level load. -/
theorem c7_script_classification :
    (∀ (st : GameState) (line : List Datum),
       line.length ≠ 1 → line.length ≠ 2 → line.length ≠ 3 → line.length ≠ 10 →
       processLevelData st line = .error "Not Implemented")
  ∧ (∀ (st : GameState) (line : List Datum), line.length = 10 →
       labelKind ((line.get? 0).getD (Datum.num 0)).asStr = none →
       processLevelData st line = .error "Not Implemented")
  ∧ (∀ (st : GameState) (line : List Datum), line.length = 1 →
       processLevelData st line
         = .ok { st with levelPassableScore := ((line.get? 0).getD (Datum.num 0)).asNum })
  ∧ (∀ (st : GameState) (line : List Datum), line.length = 2 →
       (line.get? 0).getD (Datum.num 0) = Datum.str "black" →
       processLevelData st line
         = .ok (animateBlackout st ((line.get? 1).getD (Datum.num 0)).asFades))
  ∧ (∀ (st : GameState) (line : List Datum), line.length = 3 →
       processLevelData st line
         = .ok (spawnArchitecture st ((line.get? 1).getD (Datum.num 0)).asPts
                 ((line.get? 2).getD (Datum.num 0)).asNum))
  ∧ (∀ (st : GameState) (line : List Datum) (k : ShapeKind), line.length = 10 →
       labelKind ((line.get? 0).getD (Datum.num 0)).asStr = some k →
       (∀ a ∈ ((line.get? 6).getD (Datum.num 0)).asAnims, a.2.length = 3) →
       (∀ a ∈ ((line.get? 7).getD (Datum.num 0)).asAnims, a.2.length = 2) →
       (∀ a ∈ ((line.get? 8).getD (Datum.num 0)).asAnims, a.2.length = 4) →
       (((line.get? 9).getD (Datum.num 0)).asNums.length = 0
          ∨ ((line.get? 9).getD (Datum.num 0)).asNums.length = 5) →
       ∃ st', processLevelData st line = .ok st'
         ∧ st'.shapes.map Shape.kind = st.shapes.map Shape.kind ++ [k]) := by
  refine ⟨?_, ?_, ?_, ?_, ?_, ?_⟩
  · intro st line h1 h2 h3 h10
    unfold processLevelData
    dsimp only
    rw [if_neg h1, if_neg h2, if_neg h3, if_neg h10]
  · intro st line hlen hk
    unfold processLevelData
    dsimp only
    rw [if_neg (by omega), if_neg (by omega), if_neg (by omega), if_pos hlen]
    unfold spawnShape
    rw [hk]
  · intro st line hlen
    unfold processLevelData
    dsimp only
    rw [if_pos hlen]
  · intro st line hlen hblack
    unfold processLevelData
    dsimp only
    rw [if_neg (by omega), if_pos hlen, if_pos hblack]
  · intro st line hlen
    unfold processLevelData
    dsimp only
    rw [if_neg (by omega), if_neg (by omega), if_pos hlen]
  · intro st line k hlen hk h3 h2 h4 hcd
    unfold processLevelData
    dsimp only
    rw [if_neg (by omega), if_neg (by omega), if_neg (by omega), if_pos hlen]
    exact spawnShape_kind st _ k _ _ _ _ _ _ _ _ _ hk h3 h2 h4 hcd

/-- Witness for C7: a length-4 line is rejected with
`"Not Implemented"`, and a well-formed length-10 triangle line on the
empty state spawns exactly one triangle. -/
theorem c7_script_classification_witness :
    processLevelData {} [Datum.num 1, Datum.num 2, Datum.num 3, Datum.num 4]
      = .error "Not Implemented"
    ∧ ∃ st', processLevelData {}
        [Datum.str "triangle", Datum.num 100, Datum.num 100, Datum.num 0, Datum.num 50,
         Datum.num 0, Datum.anims [], Datum.anims [], Datum.anims [], Datum.nums []]
        = .ok st'
      ∧ st'.shapes.map Shape.kind = [ShapeKind.triangle] := by
  refine ⟨c7_script_classification.1 {} _ (by decide) (by decide) (by decide) (by decide), ?_⟩
  obtain ⟨st', hok, hmap⟩ := c7_script_classification.2.2.2.2.2 {}
      [Datum.str "triangle", Datum.num 100, Datum.num 100, Datum.num 0, Datum.num 50,
       Datum.num 0, Datum.anims [], Datum.anims [], Datum.anims [], Datum.nums []]
      ShapeKind.triangle rfl rfl
      (by intro a ha; simp [Datum.asAnims] at ha)
      (by intro a ha; simp [Datum.asAnims] at ha)
      (by intro a ha; simp [Datum.asAnims] at ha)
      (Or.inl rfl)
  refine ⟨st', hok, ?_⟩
  rw [hmap]
  rfl

/-- Claim C2 counterexample: clicks on an Armored Target bypass the
intangibility guard entirely — the pointerdown handler calls
`takeDamage` directly with no `this.intangible` check, so with global
intangibility active a click on a 1-hit armored target still bumps the
score from 0 to 1: "no effect on score" is false as stated. -/
theorem c2_counterexample :
    ({ intangible := true, shapes := [{ kind := .armored, healthPoints := 1, y := 100 }] } : GameState).intangible = true
    ∧ (takeDamage { intangible := true, shapes := [{ kind := .armored, healthPoints := 1, y := 100 }] } 0).score = 1 := by
  refine ⟨rfl, ?_⟩
  norm_num [takeDamage, removeShape, performDeathAnimation, modifyAt, gameConfigHeight]

/-- Claim C2 amended: while global intangibility is active, hover
dispatch through `handleShapeInteraction` is the identity for every
label except `'area'` (no score, lifecycle or power-up change); the
Resource Zone hover still holds and refills the resource bar even
while intangible; clicks on Armored Targets bypass the intangibility
guard (the pointerdown handler calls `takeDamage` directly, so a
final click scores +1 even while intangible); and when intangibility
deactivates, the catch-up containment pass hands a live Target the
pointer rests on its consequence exactly once: score +1 and the
target starts dying. -/
theorem c2_amended :
    (∀ (st : GameState) (i : Nat) (ty : String), st.intangible = true → ty ≠ "area" →
       handleShapeInteraction st i ty = st)
  ∧ (∀ (st : GameState) (i : Nat) (sh : Shape), st.shapes.get? i = some sh →
       handleShapeInteraction st i "area"
         = { st with healthBar := refillAndPauseHealthBar st.healthBar })
  ∧ (∀ (st : GameState) (i : Nat) (s : Shape), st.intangible = true →
       st.shapes.get? i = some s → s.healthPoints = 1 →
       (takeDamage st i).score = st.score + 1)
  ∧ (∀ (st : GameState) (tri : Shape) (contains : Shape → Bool),
       st.intangible = true → st.shapes = [tri] → tri.kind = ShapeKind.triangle →
       tri.dying = false → contains tri = true →
       (finishIntangible st contains).score = st.score + 1
       ∧ ∃ a, (finishIntangible st contains).shapes.get? 0 = some a ∧ a.dying = true) := by
  refine ⟨?_, ?_, ?_, ?_⟩
  · intro st i ty hI hty
    unfold handleShapeInteraction
    cases hg : st.shapes.get? i with
    | none => rfl
    | some sh =>
      dsimp only
      rw [if_neg hty, if_pos hI]
  · intro st i sh hg
    unfold handleShapeInteraction
    rw [hg]
    dsimp only
    rw [if_pos rfl]
  · intro st i s hI hg hp1
    exact ((takeDamage_spec st i s hg).1 (by rw [hp1]; norm_num)).1
  · intro st tri contains hI hsh hk hd hc
    have hS0 : ({ st with intangible := false } : GameState).shapes = [tri] := hsh
    have hget : ({ st with intangible := false } : GameState).shapes.get? 0 = some tri := by
      rw [hS0]
      rfl
    have harm : strStartsWith "triangle" "armored_" = false := by decide
    have hfold : finishIntangible st contains
        = handleShapeInteraction { st with intangible := false } 0 "triangle" := by
      unfold finishIntangible checkAllShapes
      rw [show List.range ({ st with intangible := false } : GameState).shapes.length = [0] from by rw [hS0]; simp only [List.length_singleton]; decide]
      rw [List.foldl_cons, List.foldl_nil]
      dsimp only
      rw [hget]
      dsimp only
      rw [show checkAllShapesType tri.kind = some "triangle" from by rw [hk]; rfl]
      dsimp only
      rw [if_pos hc]
    have hhsi : handleShapeInteraction { st with intangible := false } 0 "triangle"
        = { removeShape { st with intangible := false } 0 with
            score := (removeShape { st with intangible := false } 0).score + 1 } := by
      unfold handleShapeInteraction hsiFinish
      rw [hget]
      simp [hd, harm]
    obtain ⟨sp, hsp⟩ := performDeath_eq { st with intangible := false } 0
    constructor
    · rw [hfold, hhsi]
      dsimp only
      rw [show removeShape = performDeathAnimation from rfl, performDeath_score]
    · refine ⟨{ tri with dying := true }, ?_, rfl⟩
      rw [hfold, hhsi]
      dsimp only
      rw [show removeShape = performDeathAnimation from rfl, hsp]
      dsimp only
      rw [hget]
      dsimp only
      rw [if_neg (show ¬tri.dying = true from by simp [hd])]
      rw [get?_modifyAt, if_pos rfl, hget]
      rfl

/-- Witness for `c2_amended`: with intangibility active a hover on a
live Target is ignored, and ending intangibility while the pointer
rests on it scores it exactly once. -/
theorem c2_amended_witness :
    handleShapeInteraction { intangible := true, shapes := [{ kind := .triangle, y := 100 }] } 0 "triangle"
      = { intangible := true, shapes := [{ kind := .triangle, y := 100 }] }
  ∧ (finishIntangible { intangible := true, shapes := [{ kind := .triangle, y := 100 }] }
        (fun _ => true)).score
      = ({ intangible := true, shapes := [{ kind := .triangle, y := 100 }] } : GameState).score + 1 := by
  refine ⟨c2_amended.1 { intangible := true, shapes := [{ kind := .triangle, y := 100 }] } 0
      "triangle" rfl (by decide), ?_⟩
  exact (c2_amended.2.2.2 { intangible := true, shapes := [{ kind := .triangle, y := 100 }] }
      { kind := .triangle, y := 100 } (fun _ => true) rfl rfl rfl rfl rfl).1
